import Mathlib

/-!
# detectnet_toy: the crop policy of the frame loop

A shallow embedding of `main` in `src/detectnet_toy/detectnet.cpp`
(lines 136-229): the region-of-interest computation, the per-frame scan over
the detections, the pacing counters and the render calls of the loop.

Conventions of the embedding.

* `unsigned int` / `uint32_t` values are integers in `[0, 2^32)`; every
  unsigned operation of the source is followed by an explicit `% 2^32`
  (`wrapU32`), and the store into the `int` fields of `roi` goes through
  `toInt32`.
* `long int` (`pacer`, `frame_count`) is an unbounded integer: the counter
  grows by one per captured frame and signed overflow, undefined in C++,
  needs `2^63` captured frames.
* A `float` is modelled by the rational number it denotes.  The float
  operations of lines 192-193 (`/2` and `+`) round to binary32 (`rnd32`: round
  to nearest, ties to even, 24-bit significand, subnormals down to `2^-149`);
  where the machine produces an infinity the model keeps the finite rounded
  value, and the conversion to `unsigned int` saturates for both.
* `Width()` and `Height()` are declared outside the sources and follow the
  words of the specification (`right - left`, `bottom - top`); for binary32
  coordinates the half width that line 192 adds to `Left` is the same whether
  or not the subtraction inside `Width()` rounds (`centerX_rounded_width`).
* The conversion of a float to `unsigned int` is truncation, saturating
  outside `[0, 2^32)` as the AArch64 target of the repository does (the C++
  standard leaves that case undefined).
-/

namespace Detectnet

/-! ## Machine integers -/

/-- Reduction of an integer to the range of `uint32_t`. -/
def wrapU32 (x : Int) : Int := x % 4294967296

/-- Conversion of a `uint32_t` value to `int` (two's complement). -/
def toInt32 (x : Int) : Int :=
  if x % 4294967296 < 2147483648 then x % 4294967296 else x % 4294967296 - 4294967296

/-- Largest value of the C type `int`. -/
def INT_MAX : Int := 2147483647

/-- Conversion `float -> unsigned int`: truncation toward zero, saturating
to `0` below the range and to `2^32 - 1` above it. -/
def f2u (q : ℚ) : Int := max 0 (min ⌊q⌋ 4294967295)

/-- Rounding of a rational to the nearest integer, ties to the even one. -/
def rne (x : ℚ) : Int :=
  if x - ⌊x⌋ < 1 / 2 then ⌊x⌋
  else if 1 / 2 < x - ⌊x⌋ then ⌊x⌋ + 1
  else if ⌊x⌋ % 2 = 0 then ⌊x⌋ else ⌊x⌋ + 1

/-- Exponent of the binary32 quantum at `x`: 23 below the binade of `|x|`,
and `-149` throughout the subnormal range. -/
def ulpExp (x : ℚ) : Int := max (Int.log 2 |x|) (-126) - 23

/-- Result of a binary32 operation whose exact value is `x`: the multiple of
the quantum at `x` nearest to `x`, ties to even. -/
def rnd32 (x : ℚ) : ℚ := (rne (x / 2 ^ ulpExp x) : ℚ) * 2 ^ ulpExp x

/-! ## Data of the loop -/

/-- Modelled from the spec: `detectNet::Detection` is declared in the
jetson-inference headers, which are not part of the sources; section 3 of the
specification gives its fields (class identifier, confidence, and the
bounding box as left/top/right/bottom float coordinates). -/
structure Detection where
  ClassID : Nat
  Confidence : ℚ
  Left : ℚ
  Top : ℚ
  Right : ℚ
  Bottom : ℚ

/-- Modelled from the spec: `Detection::Width()`, "width = right - left". -/
def Detection.Width (d : Detection) : ℚ := d.Right - d.Left

/-- Modelled from the spec: `Detection::Height()`, "height = bottom - top". -/
def Detection.Height (d : Detection) : ℚ := d.Bottom - d.Top

/-- The CUDA vector type `int4`, four `int` fields. -/
structure Int4 where
  x : Int
  y : Int
  z : Int
  w : Int
deriving DecidableEq

/-- `const uint32_t CROP_WIDTH = 416;` (line 137). -/
def CROP_WIDTH : Int := 416

/-- `const uint32_t CROP_HEIGHT = 416;` (line 138). -/
def CROP_HEIGHT : Int := 416

/-- `const float MIN_CONF = 0.70;` (line 142): the `float` nearest to `0.70`,
which is `11744051 / 2^24 = 0.699999988079071044921875`. -/
def MIN_CONF : ℚ := 11744051 / 16777216

/-- `const int IMAGE_PACING = 20;` (line 143). -/
def IMAGE_PACING : Int := 20

/-- `const std::string OBJECT = "dog";` (line 146). -/
def OBJECT : String := "dog"

/-! ## Region of interest (lines 192-202) -/

/-- The float value assigned to `lr_center` on line 192,
`detections[n].Left + detections[n].Width()/2`: a binary32 division and a
binary32 addition. -/
def centerX (d : Detection) : ℚ := rnd32 (d.Left + rnd32 (d.Width / 2))

/-- The float value assigned to `tb_center` on line 193,
`detections[n].Top + detections[n].Height()/2`: a binary32 division and a
binary32 addition. -/
def centerY (d : Detection) : ℚ := rnd32 (d.Top + rnd32 (d.Height / 2))

/-- Lines 194-195: the clamp of `lr_center`, from the value `c0` that
line 192 stored in it; `inputWidth` is `input->GetWidth()`. -/
def lr_clamp (inputWidth c0 : Int) : Int :=
  let c1 := if c0 < CROP_WIDTH / 2 then CROP_WIDTH / 2 else c0
  if c1 > wrapU32 (inputWidth - CROP_WIDTH / 2) then wrapU32 (inputWidth - CROP_WIDTH / 2) else c1

/-- Lines 196-197: the clamp of `tb_center`, from the value `c0` that
line 193 stored in it; `inputHeight` is `input->GetHeight()`. -/
def tb_clamp (inputHeight c0 : Int) : Int :=
  let c1 := if c0 < CROP_HEIGHT / 2 then CROP_HEIGHT / 2 else c0
  if c1 > wrapU32 (inputHeight - CROP_HEIGHT / 2) then wrapU32 (inputHeight - CROP_HEIGHT / 2) else c1

/-- Value of `lr_center` after lines 192, 194 and 195. -/
def lr_center (inputWidth : Int) (d : Detection) : Int :=
  lr_clamp inputWidth (f2u (centerX d))

/-- Value of `tb_center` after lines 193, 196 and 197. -/
def tb_center (inputHeight : Int) (d : Detection) : Int :=
  tb_clamp inputHeight (f2u (centerY d))

/-- Lines 199-202: the four stores into `roi`, from the final values of
`lr_center` and `tb_center`. -/
def make_roi (lr tb : Int) : Int4 :=
  { x := toInt32 (wrapU32 (lr - CROP_WIDTH / 2))
    y := toInt32 (wrapU32 (tb - CROP_HEIGHT / 2))
    z := toInt32 (wrapU32 (lr + CROP_WIDTH / 2))
    w := toInt32 (wrapU32 (tb + CROP_HEIGHT / 2)) }

/-- Value of `roi` after lines 192-202 for the detection `d`. -/
def roi (inputWidth inputHeight : Int) (d : Detection) : Int4 :=
  make_roi (lr_center inputWidth d) (tb_center inputHeight d)

/-! ## The detection scan (lines 174-210) -/

/-- Position returned by `std::string::find(pat)` on `s`: the first index at
which `pat` occurs, `none` for `std::string::npos`. -/
def find : List Char → List Char → Option Nat
  | [], pat => if pat.isPrefixOf [] then some 0 else none
  | c :: t, pat => if pat.isPrefixOf (c :: t) then some 0 else (find t pat).map (· + 1)

/-- Value of `detect_hit` after lines 184-186 for one detection:
`desc.find(OBJECT) != npos`, and-ed with the two size comparisons (the
`uint32_t` constants are converted to `float`, exactly). -/
def detect_hit (GetClassDesc : Nat → String) (d : Detection) : Bool :=
  (find (GetClassDesc d.ClassID).toList OBJECT.toList).isSome &&
    (decide (d.Width ≤ (CROP_WIDTH : ℚ)) && decide (d.Height ≤ (CROP_HEIGHT : ℚ)))

/-- The `for` loop of lines 179-209 over the detections of one frame.  The
arguments are the frame extents, `frame_count` (already incremented), the
remaining detections and the current `pacer`; the result is the final `pacer`
and the rectangles for which lines 204-205 (`cudaCrop`, `img_output->Render`)
were executed, in order.  The variables `detect_hit`, `lr_center`,
`tb_center` and `roi` are assigned before they are read in every pass, so
`pacer` is the only state the passes share. -/
def detectionLoop (GetClassDesc : Nat → String) (inputWidth inputHeight frame_count : Int) :
    List Detection → Int → Int × List Int4
  | [], pacer => (pacer, [])
  | d :: rest, pacer =>
    if d.Confidence > MIN_CONF then
      if detect_hit GetClassDesc d then
        if frame_count - pacer > IMAGE_PACING then
          (( detectionLoop GetClassDesc inputWidth inputHeight frame_count rest frame_count).1,
            roi inputWidth inputHeight d ::
              ( detectionLoop GetClassDesc inputWidth inputHeight frame_count rest frame_count).2)
        else detectionLoop GetClassDesc inputWidth inputHeight frame_count rest pacer
      else detectionLoop GetClassDesc inputWidth inputHeight frame_count rest pacer
    else detectionLoop GetClassDesc inputWidth inputHeight frame_count rest pacer

/-! ## The processing loop (lines 152-229) -/

/-- The two `videoOutput*` variables of `main`. -/
inductive Output where
  | output
  | img_output
deriving DecidableEq

/-- Calls the loop makes on its collaborators. -/
inductive Call where
  | cudaCrop (roi : Int4) (inputWidth inputHeight : Int)
  | Render (target : Output)
  | SetStatus
deriving DecidableEq

/-- A call together with the value of `frame_count` at which it is made. -/
structure Event where
  frame_count : Int
  call : Call
deriving DecidableEq

/-- What `main` has set up before the loop: whether each `videoOutput::Create`
returned a non-null pointer (lines 105-112), and the class descriptions of the
network. -/
structure Setup where
  output : Bool
  img_output : Bool
  GetClassDesc : Nat → String

/-- Result of `input->Capture` (line 157): failure, with the answer of
`input->IsStreaming()`, or a frame with its extents and the detections
`net->Detect` returns for it (an error return of `Detect`, a negative count,
skips the scan like the empty list). -/
inductive Capture where
  | failed (isStreaming : Bool)
  | frame (inputWidth inputHeight : Int) (detections : List Detection)

/-- Environment of one pass through the loop body: the capture, the answer
of `output->IsStreaming()` (line 223), and whether SIGINT is delivered during
the pass. -/
structure Iteration where
  capture : Capture
  outputStreaming : Bool
  sigint : Bool

/-- Variables of `main` that live across iterations, the `break` of line 161
(`exited`) and the calls made so far. -/
structure LoopState where
  pacer : Int
  frame_count : Int
  signal_recieved : Bool
  exited : Bool
  log : List Event

/-- State on entry to the loop (lines 144-145). -/
def init : LoopState :=
  { pacer := -1 * (IMAGE_PACING + 1)
    frame_count := 0
    signal_recieved := false
    exited := false
    log := [] }

/-- Events of lines 204-205 for the rectangles the scan selected. -/
def cropEvents (frame_count inputWidth inputHeight : Int) (rois : List Int4) : List Event :=
  rois.flatMap fun r =>
    [⟨frame_count, Call.cudaCrop r inputWidth inputHeight⟩, ⟨frame_count, Call.Render Output.img_output⟩]

/-- Events of lines 213-225, guarded by `output != NULL`. -/
def outputEvents (cfg : Setup) (frame_count : Int) : List Event :=
  if cfg.output then [⟨frame_count, Call.Render Output.output⟩, ⟨frame_count, Call.SetStatus⟩] else []

/-- One pass through the loop body, lines 154-228. -/
def loopBody (cfg : Setup) (s : LoopState) (it : Iteration) : LoopState :=
  match it.capture with
  | Capture.failed isStreaming =>
    if isStreaming then s else { s with exited := true }
  | Capture.frame inputWidth inputHeight detections =>
    { pacer := (detectionLoop cfg.GetClassDesc inputWidth inputHeight (s.frame_count + 1)
        detections s.pacer).1
      frame_count := s.frame_count + 1
      signal_recieved := s.signal_recieved || (cfg.output && !it.outputStreaming)
      exited := s.exited
      log := s.log ++ cropEvents (s.frame_count + 1) inputWidth inputHeight
          (detectionLoop cfg.GetClassDesc inputWidth inputHeight (s.frame_count + 1)
            detections s.pacer).2
        ++ outputEvents cfg (s.frame_count + 1) }

/-- The `while( !signal_recieved )` test followed by the body; a loop that
has ended stays where it is. -/
def step (cfg : Setup) (s : LoopState) (it : Iteration) : LoopState :=
  if s.signal_recieved || s.exited then s
  else { loopBody cfg s it with
    signal_recieved := (loopBody cfg s it).signal_recieved || it.sigint }

/-- The loop run on a sequence of iteration environments from `init`. -/
def run (cfg : Setup) (its : List Iteration) : LoopState :=
  its.foldl (step cfg) init

/-- The loop is about to execute another pass. -/
def LoopState.running (s : LoopState) : Bool := !(s.signal_recieved || s.exited)

/-- Frame indices at which `cudaCrop` was called, in order. -/
def cropFrames (log : List Event) : List Int :=
  log.filterMap fun e =>
    match e.call with
    | Call.cudaCrop _ _ _ => some e.frame_count
    | _ => none

/-- The output a `Render` call is made on was not created. -/
def missing (cfg : Setup) : Output → Bool
  | Output.output => !cfg.output
  | Output.img_output => !cfg.img_output

/-- Some `Render` call of the log is made on a null pointer. -/
def rendersOnMissing (cfg : Setup) (log : List Event) : Prop :=
  ∃ e ∈ log, ∃ t, e.call = Call.Render t ∧ missing cfg t = true

/-! ## Vocabulary of the specification -/

/-- The rational `q` is a finite IEEE-754 binary32 value: a significand of at
most 24 bits scaled by a power of two in the binary32 exponent range. -/
def IsFloat32 (q : ℚ) : Prop :=
  ∃ m : Int, ∃ k : Nat, |m| < 16777216 ∧
    ((k ≤ 104 ∧ q = (m : ℚ) * 2 ^ k) ∨ (k ≤ 149 ∧ q = (m : ℚ) / 2 ^ k))

/-- A qualifying detection in the words of the specification: confidence
above 0.70, label containing "dog", bounding box no larger than the crop. -/
def Qualifying (GetClassDesc : Nat → String) (d : Detection) : Prop :=
  d.Confidence > 7 / 10 ∧ OBJECT.toList <:+: (GetClassDesc d.ClassID).toList ∧
    d.Width ≤ 416 ∧ d.Height ≤ 416

/-- Detections of the frame captured in an iteration; none when the capture
failed. -/
def Iteration.detections (it : Iteration) : List Detection :=
  match it.capture with
  | Capture.failed _ => []
  | Capture.frame _ _ detections => detections

/-! ## Concrete inputs -/

/-- Class table with "dog" as class 1. -/
def sampleDesc : Nat → String
  | 1 => "dog"
  | 2 => "cat"
  | _ => "background"

/-- A dog of 200x200 pixels with confidence 0.875, centred at (200, 200). -/
def dogBox : Detection :=
  { ClassID := 1, Confidence := 7 / 8, Left := 100, Top := 100, Right := 300, Bottom := 300 }

/-- A dog 416 pixels wide whose edges fall on half pixels: left 92.5,
right 508.5, top 300, bottom 500; its centre is (300.5, 400). -/
def halfPixelBox : Detection :=
  { ClassID := 1, Confidence := 7 / 8, Left := 185 / 2, Top := 300, Right := 1017 / 2, Bottom := 500 }

/-- A box whose centre is rounded up by the binary32 addition: left
`256 - 2^-16`, right 256, top 300, bottom 500. -/
def roundedCentreBox : Detection :=
  { ClassID := 1, Confidence := 7 / 8, Left := 16777215 / 65536, Top := 300, Right := 256,
    Bottom := 500 }

/-- A box whose left edge is lost to the binary32 rounding of the centre:
left `92 - 2^-16`, right `508 - 2^-15`, top 300, bottom 500. -/
def roundUpBox : Detection :=
  { ClassID := 1, Confidence := 7 / 8, Left := 6029311 / 65536, Top := 300,
    Right := 16646143 / 32768, Bottom := 500 }

/-- A box that ends exactly one pixel beyond its crop: left
`1 - 2^-17 - 2^-24`, right 417, top 300, bottom 500. -/
def onePixelBox : Detection :=
  { ClassID := 1, Confidence := 7 / 8, Left := 16777087 / 16777216, Top := 300, Right := 417,
    Bottom := 500 }

/-- A box 384 pixels wide at `2^30`, where binary32 values are 128 apart:
left `2^30`, right `2^30 + 384`, top 300, bottom 500. -/
def farBox : Detection :=
  { ClassID := 1, Confidence := 7 / 8, Left := 1073741824, Top := 300, Right := 1073742208,
    Bottom := 500 }

/-- A box of 20x20 pixels in the top-left corner, centred at (10, 10). -/
def cornerBox : Detection :=
  { ClassID := 1, Confidence := 7 / 8, Left := 0, Top := 0, Right := 20, Bottom := 20 }

/-- Both outputs created, class table `sampleDesc`. -/
def bothOutputs : Setup := { output := true, img_output := true, GetClassDesc := sampleDesc }

/-- The frame output created, the image output not (`img_output == NULL`). -/
def noImgOutput : Setup := { output := true, img_output := false, GetClassDesc := sampleDesc }

/-- A captured 1920x1080 frame in which `dogBox` is detected. -/
def dogFrame : Iteration :=
  { capture := Capture.frame 1920 1080 [dogBox], outputStreaming := true, sigint := false }

/-- A captured 1920x1080 frame without detections. -/
def emptyFrame : Iteration :=
  { capture := Capture.frame 1920 1080 [], outputStreaming := true, sigint := false }

/-- Twenty-five captured frames with a dog in frames 1, 15 and 25 only. -/
def pacingScenario : List Iteration :=
  dogFrame :: (List.replicate 13 emptyFrame ++ dogFrame :: (List.replicate 9 emptyFrame ++ [dogFrame]))

/-! ## Facts about the conversions -/

theorem f2u_nonneg (q : ℚ) : 0 ≤ f2u q := by
  unfold f2u
  exact le_max_left _ _

theorem f2u_eq_floor (q : ℚ) (h0 : 0 ≤ q) (h1 : q < 4294967296) : f2u q = ⌊q⌋ := by
  unfold f2u
  have hf0 : 0 ≤ ⌊q⌋ := Int.floor_nonneg.mpr h0
  have hf1 : ⌊q⌋ < 4294967296 := by
    rw [Int.floor_lt]
    exact_mod_cast h1
  rw [min_eq_left (by omega), max_eq_right hf0]

theorem f2u_lt_of_lt (q : ℚ) (n : Int) (hn : 0 < n) (h : q < n) : f2u q < n := by
  unfold f2u
  have hf : ⌊q⌋ < n := by
    rw [Int.floor_lt]
    exact h
  have h1 : min ⌊q⌋ 4294967295 ≤ ⌊q⌋ := min_le_left _ _
  exact max_lt hn (by omega)

theorem f2u_ge_of_ge (q : ℚ) (n : Int) (hn : n ≤ 4294967295) (h : (n : ℚ) ≤ q) : n ≤ f2u q := by
  unfold f2u
  have hf : n ≤ ⌊q⌋ := Int.le_floor.mpr h
  exact le_max_of_le_right (le_min hf hn)

/-- Shape of `lr_center`/`tb_center` for a frame extent in `[416, INT_MAX]`:
the converted centre clamped into `[208, extent - 208]`. -/
theorem clamp_shape (c e : Int) (he : 416 ≤ e) (he2 : e ≤ 2147483647) :
    (if (if c < 416 / 2 then 416 / 2 else c) > (e - 416 / 2) % 4294967296
      then (e - 416 / 2) % 4294967296 else (if c < 416 / 2 then 416 / 2 else c))
      = max 208 (min c (e - 208)) := by
  have h2 : (416 : Int) / 2 = 208 := by norm_num
  rw [h2]
  have hm : (e - 208) % 4294967296 = e - 208 := by omega
  rw [hm]
  rcases lt_or_le c 208 with h | h
  · rw [if_pos h, if_neg (by omega)]
    rw [max_eq_left]
    exact le_trans (min_le_left _ _) (le_of_lt h)
  · rw [if_neg (not_lt.mpr h)]
    rcases lt_or_le (e - 208) c with h3 | h3
    · rw [if_pos h3, min_eq_right (le_of_lt h3), max_eq_right (by omega)]
    · rw [if_neg (not_lt.mpr h3), min_eq_left h3, max_eq_right h]

theorem lr_center_eq (fw : Int) (d : Detection) (h1 : 416 ≤ fw) (h2 : fw ≤ INT_MAX) :
    lr_center fw d = max 208 (min (f2u (centerX d)) (fw - 208)) := by
  unfold lr_center lr_clamp wrapU32 CROP_WIDTH
  exact clamp_shape _ _ h1 h2

theorem tb_center_eq (fh : Int) (d : Detection) (h1 : 416 ≤ fh) (h2 : fh ≤ INT_MAX) :
    tb_center fh d = max 208 (min (f2u (centerY d)) (fh - 208)) := by
  unfold tb_center tb_clamp wrapU32 CROP_HEIGHT
  exact clamp_shape _ _ h1 h2

/-- For a clamped centre `c` in `[208, extent - 208]` the two stores into
`roi` do not wrap. -/
theorem roi_axis (c e : Int) (h1 : 208 ≤ c) (h2 : c ≤ e - 208) (he : e ≤ 2147483647) :
    toInt32 (wrapU32 (c - 416 / 2)) = c - 208 ∧ toInt32 (wrapU32 (c + 416 / 2)) = c + 208 := by
  have h : (416 : Int) / 2 = 208 := by norm_num
  rw [h]
  unfold toInt32 wrapU32
  constructor
  · have hm : (c - 208) % 4294967296 = c - 208 := by omega
    rw [Int.emod_emod_of_dvd _ (dvd_refl _), hm, if_pos (by omega)]
  · have hm : (c + 208) % 4294967296 = c + 208 := by omega
    rw [Int.emod_emod_of_dvd _ (dvd_refl _), hm, if_pos (by omega)]

theorem lr_center_bounds (fw : Int) (d : Detection) (h1 : 416 ≤ fw) (h2 : fw ≤ INT_MAX) :
    208 ≤ lr_center fw d ∧ lr_center fw d ≤ fw - 208 := by
  rw [lr_center_eq fw d h1 h2]
  refine ⟨le_max_left _ _, max_le (by omega) (min_le_right _ _)⟩

theorem tb_center_bounds (fh : Int) (d : Detection) (h1 : 416 ≤ fh) (h2 : fh ≤ INT_MAX) :
    208 ≤ tb_center fh d ∧ tb_center fh d ≤ fh - 208 := by
  rw [tb_center_eq fh d h1 h2]
  refine ⟨le_max_left _ _, max_le (by omega) (min_le_right _ _)⟩

/-- The four fields of `roi` in terms of the clamped centres. -/
theorem roi_fields (fw fh : Int) (d : Detection)
    (hw1 : 416 ≤ fw) (hw2 : fw ≤ INT_MAX) (hh1 : 416 ≤ fh) (hh2 : fh ≤ INT_MAX) :
    (roi fw fh d).x = lr_center fw d - 208 ∧ (roi fw fh d).z = lr_center fw d + 208 ∧
    (roi fw fh d).y = tb_center fh d - 208 ∧ (roi fw fh d).w = tb_center fh d + 208 := by
  obtain ⟨a1, a2⟩ := lr_center_bounds fw d hw1 hw2
  obtain ⟨b1, b2⟩ := tb_center_bounds fh d hh1 hh2
  have hx := roi_axis (lr_center fw d) fw a1 a2 hw2
  have hy := roi_axis (tb_center fh d) fh b1 b2 hh2
  unfold roi make_roi CROP_WIDTH CROP_HEIGHT
  exact ⟨hx.1, hx.2, hy.1, hy.2⟩

/-! ## Facts about the binary32 rounding -/

theorem two_zpow_pos (z : Int) : (0 : ℚ) < 2 ^ z := zpow_pos (by norm_num) z

theorem two_zpow_le {m n : Int} (h : m ≤ n) : (2 : ℚ) ^ m ≤ 2 ^ n :=
  zpow_le_zpow_right₀ (by norm_num) h

theorem two_zpow_add (m n : Int) : (2 : ℚ) ^ (m + n) = 2 ^ m * 2 ^ n :=
  zpow_add₀ (by norm_num) m n

theorem floor_le_rne (x : ℚ) : ⌊x⌋ ≤ rne x := by
  unfold rne
  split_ifs <;> omega

theorem rne_le_floor_add_one (x : ℚ) : rne x ≤ ⌊x⌋ + 1 := by
  unfold rne
  split_ifs <;> omega

theorem rne_intCast (k : Int) : rne (k : ℚ) = k := by
  unfold rne
  rw [Int.floor_intCast, sub_self, if_pos (by norm_num)]

theorem le_rne (x : ℚ) (k : Int) (h : (k : ℚ) ≤ x) : k ≤ rne x :=
  le_trans (Int.le_floor.mpr h) (floor_le_rne x)

theorem rne_le (x : ℚ) (k : Int) (h : x ≤ (k : ℚ)) : rne x ≤ k := by
  rcases eq_or_lt_of_le h with h1 | h1
  · rw [h1, rne_intCast]
  · have : ⌊x⌋ < k := Int.floor_lt.mpr h1
    have := rne_le_floor_add_one x
    omega

/-- A multiple of the rounding quantum below `x` stays below the rounded value. -/
theorem le_rnd32_of_quantum (x : ℚ) (k : Int) (h : (k : ℚ) * 2 ^ ulpExp x ≤ x) :
    (k : ℚ) * 2 ^ ulpExp x ≤ rnd32 x := by
  unfold rnd32
  have hu := two_zpow_pos (ulpExp x)
  have hk : (k : ℚ) ≤ x / 2 ^ ulpExp x := by
    rw [le_div_iff₀ hu]
    exact h
  have := le_rne _ k hk
  have h2 : (k : ℚ) ≤ (rne (x / 2 ^ ulpExp x) : ℚ) := by exact_mod_cast this
  exact mul_le_mul_of_nonneg_right h2 (le_of_lt hu)

theorem rnd32_le_of_quantum (x : ℚ) (k : Int) (h : x ≤ (k : ℚ) * 2 ^ ulpExp x) :
    rnd32 x ≤ (k : ℚ) * 2 ^ ulpExp x := by
  unfold rnd32
  have hu := two_zpow_pos (ulpExp x)
  have hk : x / 2 ^ ulpExp x ≤ (k : ℚ) := by
    rw [div_le_iff₀ hu]
    exact h
  have := rne_le _ k hk
  have h2 : (rne (x / 2 ^ ulpExp x) : ℚ) ≤ (k : ℚ) := by exact_mod_cast this
  exact mul_le_mul_of_nonneg_right h2 (le_of_lt hu)

theorem rnd32_zero : rnd32 0 = 0 := by
  unfold rnd32
  rw [zero_div]
  have : rne 0 = 0 := by
    have := rne_intCast 0
    simpa using this
  rw [this]
  simp

/-- A value `n * 2^j` lies on every coarser or equal grid `2^E`, `E <= j`. -/
theorem on_quantum (n j E : Int) (h : E ≤ j) :
    ∃ k : Int, (n : ℚ) * 2 ^ j = (k : ℚ) * 2 ^ E := by
  refine ⟨n * 2 ^ (j - E).toNat, ?_⟩
  have h1 : (2 : ℚ) ^ j = 2 ^ (j - E) * 2 ^ E := by
    rw [← two_zpow_add]
    congr 1
    omega
  have h2 : (2 : ℚ) ^ (j - E) = ((2 ^ (j - E).toNat : Int) : ℚ) := by
    push_cast
    rw [← zpow_natCast, Int.toNat_of_nonneg (by omega)]
  rw [h1, h2]
  push_cast
  ring

/-- A binary32 value finer than the quantum of `x` is no larger than the
power of two at the bottom of the binade of `x`. -/
theorem below_binade (x : ℚ) (n j : Int) (hx : x ≠ 0) (hn : |n| ≤ 16777216) (hj : -149 ≤ j)
    (hlt : j < ulpExp x) :
    |(n : ℚ) * 2 ^ j| ≤ 2 ^ Int.log 2 |x| ∧ (2 : ℚ) ^ Int.log 2 |x| ≤ |x| ∧
      (2 : ℚ) ^ Int.log 2 |x| = ((8388608 : Int) : ℚ) * 2 ^ ulpExp x := by
  have he : ulpExp x = Int.log 2 |x| - 23 := by
    unfold ulpExp at hlt ⊢
    omega
  have hxpos : 0 < |x| := abs_pos.mpr hx
  refine ⟨?_, Int.zpow_log_le_self (by norm_num) hxpos, ?_⟩
  · rw [abs_mul, abs_of_pos (two_zpow_pos j)]
    have h1 : |(n : ℚ)| ≤ 16777216 := by
      have : ((|n| : Int) : ℚ) ≤ ((16777216 : Int) : ℚ) := by exact_mod_cast hn
      simpa using this
    have h2 : (16777216 : ℚ) * 2 ^ j = 2 ^ (24 + j) := by
      rw [two_zpow_add]
      norm_num
    calc |(n : ℚ)| * 2 ^ j ≤ 16777216 * 2 ^ j :=
          mul_le_mul_of_nonneg_right h1 (le_of_lt (two_zpow_pos j))
      _ = 2 ^ (24 + j) := h2
      _ ≤ 2 ^ Int.log 2 |x| := two_zpow_le (by omega)
  · rw [he]
    have : Int.log 2 |x| = 23 + (Int.log 2 |x| - 23) := by omega
    conv_lhs => rw [this, two_zpow_add]
    norm_num

/-- Rounding never crosses a binary32 value from above: a binary32 value
`n * 2^j` at or below `x` is at or below the rounded `x`. -/
theorem le_rnd32 (x : ℚ) (n j : Int) (hn : |n| ≤ 16777216) (hj : -149 ≤ j)
    (h : (n : ℚ) * 2 ^ j ≤ x) : (n : ℚ) * 2 ^ j ≤ rnd32 x := by
  by_cases hx : x = 0
  · rw [hx, rnd32_zero]
    rw [hx] at h
    exact h
  by_cases hE : ulpExp x ≤ j
  · obtain ⟨k, hk⟩ := on_quantum n j (ulpExp x) hE
    rw [hk] at h ⊢
    exact le_rnd32_of_quantum x k h
  · obtain ⟨h1, h2, h3⟩ := below_binade x n j hx hn hj (by omega)
    generalize (2 : ℚ) ^ Int.log 2 |x| = P at h1 h2 h3
    have ha := (abs_le.mp h1)
    have hlo := le_rnd32_of_quantum x (-8388608)
    have hhi := le_rnd32_of_quantum x 8388608
    push_cast at h3 hlo hhi
    rcases lt_or_gt_of_ne hx with hneg | hpos
    · rw [abs_of_neg hneg] at h2
      have := hlo (by linarith)
      linarith
    · rw [abs_of_pos hpos] at h2
      have := hhi (by linarith)
      linarith

/-- Rounding never crosses a binary32 value from below. -/
theorem rnd32_le (x : ℚ) (n j : Int) (hn : |n| ≤ 16777216) (hj : -149 ≤ j)
    (h : x ≤ (n : ℚ) * 2 ^ j) : rnd32 x ≤ (n : ℚ) * 2 ^ j := by
  by_cases hx : x = 0
  · rw [hx, rnd32_zero]
    rw [hx] at h
    exact h
  by_cases hE : ulpExp x ≤ j
  · obtain ⟨k, hk⟩ := on_quantum n j (ulpExp x) hE
    rw [hk] at h ⊢
    exact rnd32_le_of_quantum x k h
  · obtain ⟨h1, h2, h3⟩ := below_binade x n j hx hn hj (by omega)
    generalize (2 : ℚ) ^ Int.log 2 |x| = P at h1 h2 h3
    have ha := (abs_le.mp h1)
    have hlo := rnd32_le_of_quantum x (-8388608)
    have hhi := rnd32_le_of_quantum x 8388608
    push_cast at h3 hlo hhi
    rcases lt_or_gt_of_ne hx with hneg | hpos
    · rw [abs_of_neg hneg] at h2
      have := hlo (by linarith)
      linarith
    · rw [abs_of_pos hpos] at h2
      have := hhi (by linarith)
      linarith

/-- Binary32 values are fixed by the rounding. -/
theorem rnd32_fixed (n j : Int) (hn : |n| ≤ 16777216) (hj : -149 ≤ j) :
    rnd32 ((n : ℚ) * 2 ^ j) = (n : ℚ) * 2 ^ j :=
  le_antisymm (rnd32_le _ n j hn hj (le_refl _)) (le_rnd32 _ n j hn hj (le_refl _))

theorem le_rnd32_int (x : ℚ) (n : Int) (hn : |n| ≤ 16777216) (h : (n : ℚ) ≤ x) :
    (n : ℚ) ≤ rnd32 x := by
  have := le_rnd32 x n 0 hn (by norm_num) (by simpa using h)
  simpa using this

theorem rnd32_le_int (x : ℚ) (n : Int) (hn : |n| ≤ 16777216) (h : x ≤ (n : ℚ)) :
    rnd32 x ≤ (n : ℚ) := by
  have := rnd32_le x n 0 hn (by norm_num) (by simpa using h)
  simpa using this

/-- The binade of a positive rational is determined by its two bounds. -/
theorem log_unique (r : ℚ) (e : Int) (hr : 0 < r) (h1 : (2 : ℚ) ^ e ≤ r) (h2 : r < 2 ^ (e + 1)) :
    Int.log 2 r = e := by
  have a : e ≤ Int.log 2 r := (Int.zpow_le_iff_le_log (by norm_num) hr).mp (by exact_mod_cast h1)
  have b : Int.log 2 r < e + 1 := (Int.lt_zpow_iff_log_lt (by norm_num) hr).mp (by exact_mod_cast h2)
  omega

/-- The rounding of `x` from the binade `[2^e, 2^(e+1))` of `|x|`, in the
normal range. -/
theorem rnd32_eval (x : ℚ) (e : Int) (he : -126 ≤ e) (h1 : (2 : ℚ) ^ e ≤ |x|)
    (h2 : |x| < 2 ^ (e + 1)) : rnd32 x = (rne (x / 2 ^ (e - 23)) : ℚ) * 2 ^ (e - 23) := by
  have hpos : 0 < |x| := lt_of_lt_of_le (two_zpow_pos e) h1
  have hu : ulpExp x = e - 23 := by
    unfold ulpExp
    rw [log_unique |x| e hpos h1 h2]
    omega
  unfold rnd32
  rw [hu]

/-- Halving commutes with the rounding when the half stays in the normal
range. -/
theorem rnd32_half (x : ℚ) (hx : (2 : ℚ) ^ (-125 : Int) ≤ |x|) : rnd32 (x / 2) = rnd32 x / 2 := by
  have hpos : 0 < |x| := lt_of_lt_of_le (two_zpow_pos (-125)) hx
  have h1 := Int.zpow_log_le_self (b := 2) (by norm_num) hpos
  have h2 := Int.lt_zpow_succ_log_self (b := 2) (by norm_num) |x|
  have h0 : (-125 : Int) ≤ Int.log 2 |x| :=
    (Int.zpow_le_iff_le_log (by norm_num) hpos).mp (by exact_mod_cast hx)
  push_cast at h1 h2
  have habs : |x / 2| = |x| / 2 := by
    rw [abs_div]
    norm_num
  have e1 : (2 : ℚ) ^ (Int.log 2 |x| - 1) ≤ |x / 2| := by
    rw [habs]
    have : (2 : ℚ) ^ (Int.log 2 |x|) = 2 ^ (Int.log 2 |x| - 1) * 2 := by
      have h : Int.log 2 |x| = (Int.log 2 |x| - 1) + 1 := by omega
      conv_lhs => rw [h, two_zpow_add]
      norm_num
    linarith
  have e2 : |x / 2| < 2 ^ (Int.log 2 |x| - 1 + 1) := by
    rw [habs]
    have : (2 : ℚ) ^ (Int.log 2 |x| + 1) = 2 ^ (Int.log 2 |x| - 1 + 1) * 2 := by
      have h : Int.log 2 |x| + 1 = (Int.log 2 |x| - 1 + 1) + 1 := by omega
      conv_lhs => rw [h, two_zpow_add]
      norm_num
    linarith
  rw [rnd32_eval (x / 2) (Int.log 2 |x| - 1) (by omega) e1 e2,
    rnd32_eval x (Int.log 2 |x|) (by omega) h1 h2]
  have hq : (2 : ℚ) ^ (Int.log 2 |x| - 23) = 2 ^ (Int.log 2 |x| - 1 - 23) * 2 := by
    have h : Int.log 2 |x| - 23 = (Int.log 2 |x| - 1 - 23) + 1 := by omega
    conv_lhs => rw [h, two_zpow_add]
    norm_num
  have hu := two_zpow_pos (Int.log 2 |x| - 1 - 23)
  have harg : x / 2 / 2 ^ (Int.log 2 |x| - 1 - 23) = x / 2 ^ (Int.log 2 |x| - 23) := by
    rw [hq]
    field_simp
    left
    ring
  rw [harg, hq]
  ring

/-- The rounded value is a binary32 value: a significand of at most 24 bits
times the quantum. -/
theorem rnd32_grid (x : ℚ) :
    ∃ n : Int, |n| ≤ 16777216 ∧ -149 ≤ ulpExp x ∧ rnd32 x = (n : ℚ) * 2 ^ ulpExp x := by
  have hE : -149 ≤ ulpExp x := by
    unfold ulpExp
    omega
  refine ⟨rne (x / 2 ^ ulpExp x), ?_, hE, rfl⟩
  have hu := two_zpow_pos (ulpExp x)
  have h2 := Int.lt_zpow_succ_log_self (b := 2) (by norm_num) |x|
  push_cast at h2
  have h3 : (2 : ℚ) ^ (Int.log 2 |x| + 1) ≤ 2 ^ (24 + ulpExp x) :=
    two_zpow_le (by unfold ulpExp; omega)
  have h4 : (2 : ℚ) ^ (24 + ulpExp x) = 16777216 * 2 ^ ulpExp x := by
    rw [two_zpow_add]
    norm_num
  rw [h4] at h3
  have hx := abs_lt.mp (lt_of_lt_of_le h2 h3)
  have hup : x / 2 ^ ulpExp x ≤ ((16777216 : Int) : ℚ) := by
    rw [div_le_iff₀ hu]
    push_cast
    linarith
  have hdn : ((-16777216 : Int) : ℚ) ≤ x / 2 ^ ulpExp x := by
    rw [le_div_iff₀ hu]
    push_cast
    linarith
  have a1 := rne_le _ _ hup
  have a2 := le_rne _ _ hdn
  rw [abs_le]
  exact ⟨a2, a1⟩

theorem rnd32_idem (x : ℚ) : rnd32 (rnd32 x) = rnd32 x := by
  obtain ⟨n, hn, hE, h⟩ := rnd32_grid x
  rw [h]
  exact rnd32_fixed n _ hn hE

/-- A binary32 value in the form used by the rounding lemmas. -/
theorem IsFloat32.grid {q : ℚ} (h : IsFloat32 q) :
    ∃ n j : Int, |n| ≤ 16777216 ∧ -149 ≤ j ∧ q = (n : ℚ) * 2 ^ j := by
  obtain ⟨m, k, hm, hk | hk⟩ := h
  · refine ⟨m, k, le_of_lt hm, by omega, ?_⟩
    rw [hk.2, zpow_natCast]
  · refine ⟨m, -k, le_of_lt hm, by omega, ?_⟩
    rw [hk.2, zpow_neg, zpow_natCast]
    rfl

theorem rnd32_of_float (q : ℚ) (h : IsFloat32 q) : rnd32 q = q := by
  obtain ⟨n, j, hn, hj, rfl⟩ := h.grid
  exact rnd32_fixed n j hn hj

/-- A binary32 value of at least 256 is a multiple of `2^-15`. -/
theorem float_granular (q : ℚ) (h : IsFloat32 q) (hq : 256 ≤ q) :
    ∃ t : Int, q * 32768 = (t : ℚ) := by
  obtain ⟨m, k, hm, hk | hk⟩ := h
  · refine ⟨m * 2 ^ k * 32768, ?_⟩
    rw [hk.2]
    push_cast
    ring
  · obtain ⟨_, rfl⟩ := hk
    have hm2 : (m : ℚ) < 16777216 := by
      have := (abs_lt.mp hm).2
      exact_mod_cast this
    have hpos : (0 : ℚ) < 2 ^ k := by positivity
    have hk15 : k ≤ 15 := by
      by_contra hgt
      push_neg at hgt
      have hp : (2 : ℚ) ^ 16 ≤ 2 ^ k := pow_le_pow_right₀ (by norm_num) hgt
      rw [le_div_iff₀ hpos] at hq
      have : (2 : ℚ) ^ 16 = 65536 := by norm_num
      nlinarith
    refine ⟨m * 2 ^ (15 - k), ?_⟩
    have h2 : (32768 : ℚ) = 2 ^ (15 - k) * 2 ^ k := by
      rw [← pow_add]
      have : 15 - k + k = 15 := by omega
      rw [this]
      norm_num
    rw [h2]
    push_cast
    field_simp
    ring

/-- For binary32 `l` and `r` the rounded half of `r - l` is the same whether
or not the subtraction is rounded first. -/
theorem half_width_rounding (l r : ℚ) (hl : IsFloat32 l) (hr : IsFloat32 r) :
    rnd32 (rnd32 (r - l) / 2) = rnd32 ((r - l) / 2) := by
  rcases lt_or_le |r - l| ((2 : ℚ) ^ (-125 : Int)) with hs | hb
  · -- a difference below 2^-125 is itself a binary32 value
    obtain ⟨n1, j1, _, hj1, rfl⟩ := hl.grid
    obtain ⟨n2, j2, _, hj2, rfl⟩ := hr.grid
    obtain ⟨k1, hk1⟩ := on_quantum n1 j1 (-149) hj1
    obtain ⟨k2, hk2⟩ := on_quantum n2 j2 (-149) hj2
    rw [hk1, hk2] at hs ⊢
    have hd : (k2 : ℚ) * 2 ^ (-149 : Int) - (k1 : ℚ) * 2 ^ (-149 : Int)
        = ((k2 - k1 : Int) : ℚ) * 2 ^ (-149 : Int) := by
      push_cast
      ring
    rw [hd] at hs ⊢
    have hu := two_zpow_pos (-149)
    have hsplit : (2 : ℚ) ^ (-125 : Int) = 16777216 * 2 ^ (-149 : Int) := by
      have : (-125 : Int) = 24 + (-149) := by decide
      rw [this, two_zpow_add]
      norm_num
    rw [abs_mul, abs_of_pos hu, hsplit] at hs
    have hk : |((k2 - k1 : Int) : ℚ)| < 16777216 := lt_of_mul_lt_mul_right hs (le_of_lt hu)
    have hk2 : |k2 - k1| ≤ 16777216 := by
      have : ((|k2 - k1| : Int) : ℚ) < ((16777216 : Int) : ℚ) := by
        rw [Int.cast_abs]
        exact hk
      have := Int.cast_lt.mp this
      omega
    rw [rnd32_fixed (k2 - k1) (-149) hk2 (by decide)]
  · have hy : (2 : ℚ) ^ (-125 : Int) ≤ |rnd32 (r - l)| := by
      have hone : (2 : ℚ) ^ (-125 : Int) = ((1 : Int) : ℚ) * 2 ^ (-125 : Int) := by simp
      rcases le_abs.mp hb with h | h
      · have := le_rnd32 (r - l) 1 (-125) (by decide) (by decide) (by rw [← hone]; exact h)
        rw [← hone] at this
        exact le_trans this (le_abs_self _)
      · have := rnd32_le (r - l) (-1) (-125) (by decide) (by decide) (by push_cast; linarith)
        push_cast at this
        exact le_trans (by linarith) (neg_le_abs _)
    rw [rnd32_half _ hy, rnd32_idem, rnd32_half _ hb]

/-- For a detection with binary32 edges the centre of line 192 is the value
obtained when the subtraction inside `Width()` rounds to binary32 as well. -/
theorem centerX_rounded_width (d : Detection) (hl : IsFloat32 d.Left) (hr : IsFloat32 d.Right) :
    centerX d = rnd32 (d.Left + rnd32 (rnd32 (d.Right - d.Left) / 2)) := by
  unfold centerX Detection.Width
  rw [half_width_rounding d.Left d.Right hl hr]

/-- For a detection with binary32 edges the centre of line 193 is the value
obtained when the subtraction inside `Height()` rounds to binary32 as well. -/
theorem centerY_rounded_height (d : Detection) (ht : IsFloat32 d.Top) (hb : IsFloat32 d.Bottom) :
    centerY d = rnd32 (d.Top + rnd32 (rnd32 (d.Bottom - d.Top) / 2)) := by
  unfold centerY Detection.Height
  rw [half_width_rounding d.Top d.Bottom ht hb]

/-- The rounded half width of a box that passes the size check is at most 208. -/
theorem half_extent_le (w : ℚ) (hW : rnd32 w ≤ 416) : rnd32 (w / 2) ≤ 208 := by
  by_cases hle : w ≤ 416
  · exact rnd32_le_int (w / 2) 208 (by decide) (by push_cast; linarith)
  · push_neg at hle
    have h1 : ((416 : Int) : ℚ) ≤ rnd32 w := le_rnd32_int w 416 (by decide) (by push_cast; linarith)
    push_cast at h1
    have h2 : rnd32 w = 416 := le_antisymm hW h1
    have h0 : (2 : ℚ) ^ (-125 : Int) ≤ 1 := by
      have := two_zpow_le (show (-125 : Int) ≤ 0 by decide)
      simpa using this
    have h3 : (2 : ℚ) ^ (-125 : Int) ≤ |w| := le_trans (by linarith) (le_abs_self w)
    rw [rnd32_half w h3, h2]
    norm_num

/-- The exact width of a box that passes the size check is below `416 + 2^-15`. -/
theorem extent_lt (w : ℚ) (hW : rnd32 w ≤ 416) : w < 416 + 1 / 32768 := by
  by_contra hge
  push_neg at hge
  have hp : (2 : ℚ) ^ (-15 : Int) = 1 / 32768 := by norm_num
  have h1 := le_rnd32 w 13631489 (-15) (by decide) (by decide)
    (by rw [hp]; push_cast; linarith)
  rw [hp] at h1
  push_cast at h1
  linarith

/-- One axis of the crop against one axis of the bounding box, with the
centre computed in binary32: `lo`/`hi` are the box edges, `e` the frame
extent, `q` the rounded centre. -/
theorem axis_cover32 (lo hi q : ℚ) (e : Int) (he : 416 ≤ e) (he2 : e ≤ 16777216)
    (hq : q = rnd32 (lo + rnd32 ((hi - lo) / 2)))
    (hfl : IsFloat32 hi) (hW : rnd32 (hi - lo) ≤ 416) (hlo : 0 ≤ lo) (hhi : hi ≤ e) :
    ((max 208 (min (f2u q) (e - 208)) : Int) : ℚ) - 208 - 1 < lo ∧
      hi ≤ ((max 208 (min (f2u q) (e - 208)) : Int) : ℚ) + 208 + 1 := by
  have hh := half_extent_le (hi - lo) hW
  have hw := extent_lt (hi - lo) hW
  constructor
  · -- left edge
    have hc0 : 0 ≤ ⌈lo⌉ := Int.ceil_nonneg hlo
    have hm : max 208 (min (f2u q) (e - 208)) ≤ ⌈lo⌉ + 208 := by
      by_cases hN : e - 208 ≤ ⌈lo⌉ + 208
      · exact max_le (by omega) (le_trans (min_le_right _ _) hN)
      · push_neg at hN
        have hsum : lo + rnd32 ((hi - lo) / 2) ≤ ((⌈lo⌉ + 208 : Int) : ℚ) := by
          push_cast
          have := Int.le_ceil lo
          linarith
        have hqle : q ≤ ((⌈lo⌉ + 208 : Int) : ℚ) := by
          rw [hq]
          exact rnd32_le_int _ _ (by rw [abs_of_nonneg (by omega)]; omega) hsum
        have hqlt : q < ((⌈lo⌉ + 208 + 1 : Int) : ℚ) := by
          push_cast at hqle ⊢
          linarith
        have := f2u_lt_of_lt q (⌈lo⌉ + 208 + 1) (by omega) hqlt
        exact max_le (by omega) (le_trans (min_le_left _ _) (by omega))
    generalize max 208 (min (f2u q) (e - 208)) = m at hm ⊢
    have hmq : (m : ℚ) ≤ ((⌈lo⌉ + 208 : Int) : ℚ) := by
      exact_mod_cast hm
    push_cast at hmq
    have := Int.ceil_lt_add_one lo
    linarith
  · -- right edge
    have hn : ⌈hi⌉ - 209 ≤ max 208 (min (f2u q) (e - 208)) := by
      by_cases hsmall : ⌈hi⌉ - 209 ≤ 208
      · exact le_trans hsmall (le_max_left _ _)
      · push_neg at hsmall
        have hce : ⌈hi⌉ ≤ e := Int.ceil_le.mpr hhi
        have h417 : (417 : ℚ) < hi := by
          have : (417 : Int) < ⌈hi⌉ := by omega
          exact_mod_cast Int.lt_ceil.mp this
        have hcl := Int.ceil_lt_add_one hi
        have hcg := Int.le_ceil hi
        have hhalf : (((⌈hi⌉ - 209 : Int)) : ℚ) - lo ≤ rnd32 ((hi - lo) / 2) := by
          push_cast
          by_cases hord : lo ≤ hi
          · -- a multiple of 2^-16 just below the half width
            obtain ⟨t, ht⟩ := float_granular hi hfl (by linarith)
            have hg : ((⌈hi⌉ * 32768 - t : Int) : ℚ) < 32768 := by
              push_cast
              rw [← ht]
              linarith
            have hg2 : ⌈hi⌉ * 32768 - t ≤ 32767 := by
              have : ⌈hi⌉ * 32768 - t < 32768 := by exact_mod_cast hg
              omega
            have hg3 : (⌈hi⌉ : ℚ) * 32768 - hi * 32768 ≤ 32767 := by
              rw [ht]
              exact_mod_cast hg2
            have hp : (2 : ℚ) ^ (-16 : Int) = 1 / 65536 := by norm_num
            have hk0 : 0 ≤ ⌊(hi - lo) / 2 * 65536⌋ := Int.floor_nonneg.mpr (by linarith)
            have hk1 : ⌊(hi - lo) / 2 * 65536⌋ < 13631489 := by
              rw [Int.floor_lt]
              push_cast
              linarith
            have hfl1 := Int.floor_le ((hi - lo) / 2 * 65536)
            have hfl2 := Int.lt_floor_add_one ((hi - lo) / 2 * 65536)
            have hbelow := le_rnd32 ((hi - lo) / 2) ⌊(hi - lo) / 2 * 65536⌋ (-16)
              (by rw [abs_of_nonneg hk0]; omega) (by decide) (by rw [hp]; linarith)
            rw [hp] at hbelow
            linarith
          · -- a degenerate box: a power of two between the two bounds
            push_neg at hord
            have hz : (0 : ℚ) < lo - (⌈hi⌉ - 209) := by linarith
            have h1 := Int.zpow_log_le_self (b := 2) (by norm_num) hz
            have h2 := Int.lt_zpow_succ_log_self (b := 2) (by norm_num) (lo - ((⌈hi⌉ : ℚ) - 209))
            have h0 : (0 : Int) ≤ Int.log 2 (lo - ((⌈hi⌉ : ℚ) - 209)) :=
              (Int.zpow_le_iff_le_log (by norm_num) hz).mp (by simp; linarith)
            push_cast at h1 h2
            rw [two_zpow_add] at h2
            have hbelow := le_rnd32 ((hi - lo) / 2) (-1) (Int.log 2 (lo - ((⌈hi⌉ : ℚ) - 209)))
              (by decide) (by omega) (by push_cast; linarith)
            push_cast at hbelow
            linarith
        have hsum : (((⌈hi⌉ - 209 : Int)) : ℚ) ≤ lo + rnd32 ((hi - lo) / 2) := by linarith
        have hqge : (((⌈hi⌉ - 209 : Int)) : ℚ) ≤ q := by
          rw [hq]
          exact le_rnd32_int _ _ (by rw [abs_of_nonneg (by omega)]; omega) hsum
        have := f2u_ge_of_ge q (⌈hi⌉ - 209) (by omega) hqge
        exact le_max_of_le_right (le_min this (by omega))
    generalize max 208 (min (f2u q) (e - 208)) = m at hn ⊢
    have hnq : ((⌈hi⌉ - 209 : Int) : ℚ) ≤ (m : ℚ) := by
      exact_mod_cast hn
    push_cast at hnq
    have := Int.le_ceil hi
    linarith


/-- One axis of the crop when the float centre needs no clamping. -/
theorem axis_centred (q : ℚ) (e : Int) (he2 : e ≤ 2147483647)
    (h1 : 208 ≤ q) (h2 : q ≤ e - 208) :
    f2u q = ⌊q⌋ ∧ max 208 (min (f2u q) (e - 208)) = ⌊q⌋ := by
  have he : (e : ℚ) ≤ 2147483647 := by exact_mod_cast he2
  have hf : f2u q = ⌊q⌋ := f2u_eq_floor q (by linarith) (by linarith)
  have hlo : (208 : Int) ≤ ⌊q⌋ := Int.le_floor.mpr (by exact_mod_cast h1)
  have hhi : ⌊q⌋ ≤ e - 208 := by
    have : (⌊q⌋ : ℚ) ≤ ((e - 208 : Int) : ℚ) := by
      push_cast
      exact le_trans (Int.floor_le q) h2
    exact_mod_cast this
  refine ⟨hf, ?_⟩
  rw [hf, min_eq_left hhi, max_eq_right hlo]

/-- One axis of the crop when the float centre is near an edge of the frame. -/
theorem axis_clamped (q : ℚ) (e : Int) (he : 416 ≤ e) (he2 : e ≤ 2147483647) :
    (q < 208 → max 208 (min (f2u q) (e - 208)) = 208) ∧
      ((e : ℚ) - 208 < q → max 208 (min (f2u q) (e - 208)) = e - 208) := by
  constructor
  · intro h
    have := f2u_lt_of_lt q 208 (by norm_num) (by exact_mod_cast h)
    exact max_eq_left (le_trans (min_le_left _ _) (le_of_lt this))
  · intro h
    have h1 : ((e - 208 : Int) : ℚ) ≤ q := by
      push_cast
      exact le_of_lt h
    have := f2u_ge_of_ge q (e - 208) (by omega) h1
    rw [min_eq_right this, max_eq_right (by omega)]

/-- Lines 194-202 started from any values `c0x`, `c0y` of the converted
centres give a 416x416 rectangle inside the frame. -/
theorem make_roi_inside (fw fh c0x c0y : Int)
    (hw1 : 416 ≤ fw) (hw2 : fw ≤ INT_MAX) (hh1 : 416 ≤ fh) (hh2 : fh ≤ INT_MAX) :
    (make_roi (lr_clamp fw c0x) (tb_clamp fh c0y)).z
      - (make_roi (lr_clamp fw c0x) (tb_clamp fh c0y)).x = 416 ∧
    (make_roi (lr_clamp fw c0x) (tb_clamp fh c0y)).w
      - (make_roi (lr_clamp fw c0x) (tb_clamp fh c0y)).y = 416 ∧
    0 ≤ (make_roi (lr_clamp fw c0x) (tb_clamp fh c0y)).x ∧
    (make_roi (lr_clamp fw c0x) (tb_clamp fh c0y)).x + 416 ≤ fw ∧
    0 ≤ (make_roi (lr_clamp fw c0x) (tb_clamp fh c0y)).y ∧
    (make_roi (lr_clamp fw c0x) (tb_clamp fh c0y)).y + 416 ≤ fh := by
  have ex : lr_clamp fw c0x = max 208 (min c0x (fw - 208)) := by
    unfold lr_clamp wrapU32 CROP_WIDTH
    exact clamp_shape _ _ hw1 hw2
  have ey : tb_clamp fh c0y = max 208 (min c0y (fh - 208)) := by
    unfold tb_clamp wrapU32 CROP_HEIGHT
    exact clamp_shape _ _ hh1 hh2
  have a1 : 208 ≤ lr_clamp fw c0x := by rw [ex]; exact le_max_left _ _
  have a2 : lr_clamp fw c0x ≤ fw - 208 := by
    rw [ex]
    exact max_le (by omega) (min_le_right _ _)
  have b1 : 208 ≤ tb_clamp fh c0y := by rw [ey]; exact le_max_left _ _
  have b2 : tb_clamp fh c0y ≤ fh - 208 := by
    rw [ey]
    exact max_le (by omega) (min_le_right _ _)
  have hx := roi_axis (lr_clamp fw c0x) fw a1 a2 hw2
  have hy := roi_axis (tb_clamp fh c0y) fh b1 b2 hh2
  have f1 : (make_roi (lr_clamp fw c0x) (tb_clamp fh c0y)).x = lr_clamp fw c0x - 208 := hx.1
  have f2 : (make_roi (lr_clamp fw c0x) (tb_clamp fh c0y)).z = lr_clamp fw c0x + 208 := hx.2
  have f3 : (make_roi (lr_clamp fw c0x) (tb_clamp fh c0y)).y = tb_clamp fh c0y - 208 := hy.1
  have f4 : (make_roi (lr_clamp fw c0x) (tb_clamp fh c0y)).w = tb_clamp fh c0y + 208 := hy.2
  rw [f1, f2, f3, f4]
  refine ⟨by omega, by omega, by omega, by omega, by omega, by omega⟩

/-- Every rectangle the scan of one frame selects is `roi` of one of the
frame's detections. -/
theorem detectionLoop_mem (g : Nat → String) (fw fh fc : Int) (dets : List Detection) :
    ∀ (p : Int) (r : Int4), r ∈ (detectionLoop g fw fh fc dets p).2 → ∃ d ∈ dets, r = roi fw fh d := by
  induction dets with
  | nil =>
    intro p r hr
    simp [detectionLoop] at hr
  | cons d rest ih =>
    intro p r hr
    rw [detectionLoop] at hr
    split_ifs at hr with h1 h2 h3
    · rcases List.mem_cons.mp hr with h | h
      · exact ⟨d, List.mem_cons_self _ _, h⟩
      · obtain ⟨x, hx, hxr⟩ := ih fc r h
        exact ⟨x, List.mem_cons_of_mem _ hx, hxr⟩
    all_goals
      obtain ⟨x, hx, hxr⟩ := ih p r hr
      exact ⟨x, List.mem_cons_of_mem _ hx, hxr⟩

/-! ## Facts about the policy checks -/

/-- On the binary32 grid of spacing `2^-24` the comparison with `MIN_CONF`
and the comparison with 0.70 agree. -/
theorem grid_gt (n : Int) :
    ((n : ℚ) / 16777216 > MIN_CONF ↔ (n : ℚ) / 16777216 > 7 / 10) := by
  unfold MIN_CONF
  have h1 : ((n : ℚ) / 16777216 > 11744051 / 16777216) ↔ (11744051 : Int) < n := by
    rw [gt_iff_lt, div_lt_div_iff_of_pos_right (by norm_num)]
    exact_mod_cast Iff.rfl
  have h2 : ((n : ℚ) / 16777216 > 7 / 10) ↔ (7 * 16777216 : Int) < n * 10 := by
    rw [gt_iff_lt, div_lt_div_iff₀ (by norm_num) (by norm_num)]
    exact_mod_cast Iff.rfl
  rw [h1, h2]
  omega

theorem small_gt (q : ℚ) (h : q < 1 / 2) : (q > MIN_CONF ↔ q > 7 / 10) := by
  unfold MIN_CONF
  constructor
  · intro h1
    exfalso
    have : (1 : ℚ) / 2 < 11744051 / 16777216 := by norm_num
    linarith
  · intro h1
    exfalso
    have : (1 : ℚ) / 2 < 7 / 10 := by norm_num
    linarith

theorem float32_gt_MIN_CONF (q : ℚ) (hq : IsFloat32 q) : (q > MIN_CONF ↔ q > 7 / 10) := by
  obtain ⟨m, k, hm, h | h⟩ := hq
  · obtain ⟨_, rfl⟩ := h
    have : (m : ℚ) * 2 ^ k = ((m * 2 ^ k * 16777216 : Int) : ℚ) / 16777216 := by
      push_cast
      field_simp
    rw [this]
    exact grid_gt _
  · obtain ⟨_, rfl⟩ := h
    rcases le_or_lt k 24 with hk | hk
    · have h2 : (2 : ℚ) ^ 24 = 2 ^ (24 - k) * 2 ^ k := by
        rw [← pow_add]
        congr 1
        omega
      have : (m : ℚ) / 2 ^ k = ((m * 2 ^ (24 - k) : Int) : ℚ) / 16777216 := by
        have h3 : (16777216 : ℚ) = 2 ^ 24 := by norm_num
        rw [h3, h2]
        push_cast
        field_simp
        ring
      rw [this]
      exact grid_gt _
    · apply small_gt
      have hm2 : (m : ℚ) < 16777216 := by
        have := (abs_lt.mp hm).2
        exact_mod_cast this
      have hp : (2 : ℚ) ^ 25 ≤ 2 ^ k := pow_le_pow_right₀ (by norm_num) hk
      have hpos : (0 : ℚ) < 2 ^ k := by positivity
      rw [div_lt_iff₀ hpos]
      have : (2 : ℚ) ^ 25 = 33554432 := by norm_num
      linarith

theorem find_isSome_iff (s pat : List Char) : (find s pat).isSome = true ↔ pat <:+: s := by
  induction s with
  | nil =>
    unfold find
    by_cases h : pat.isPrefixOf [] = true
    · rw [if_pos h]
      have : pat <+: [] := List.isPrefixOf_iff_prefix.mp h
      simp [List.prefix_nil.mp this]
    · rw [if_neg h]
      constructor
      · intro h1
        simp at h1
      · intro h1
        exfalso
        apply h
        rw [List.infix_nil.mp h1]
        rfl
  | cons c t ih =>
    unfold find
    rw [List.infix_cons_iff]
    by_cases h : pat.isPrefixOf (c :: t) = true
    · rw [if_pos h]
      simp [List.isPrefixOf_iff_prefix.mp h]
    · rw [if_neg h]
      have hn : ¬ pat <+: c :: t := fun hp => h (List.isPrefixOf_iff_prefix.mpr hp)
      have hmap : (Option.map (fun x => x + 1) (find t pat)).isSome = (find t pat).isSome := by
        cases find t pat <;> rfl
      rw [hmap, ih]
      constructor
      · intro h1
        exact Or.inr h1
      · intro h1
        rcases h1 with h1 | h1
        · exact absurd h1 hn
        · exact h1

/-- The two tests of lines 183-187 together say that the detection qualifies
in the sense of the specification, for a confidence that is a `float`. -/
theorem hit_iff_qualifying (g : Nat → String) (d : Detection) (hf : IsFloat32 d.Confidence) :
    (d.Confidence > MIN_CONF ∧ detect_hit g d = true) ↔ Qualifying g d := by
  unfold detect_hit Qualifying CROP_WIDTH CROP_HEIGHT
  rw [float32_gt_MIN_CONF _ hf, Bool.and_eq_true, Bool.and_eq_true, find_isSome_iff,
    decide_eq_true_iff, decide_eq_true_iff]
  norm_num

/-! ## Facts about the scan -/

/-- The body of the `for` loop for the detection at the head. -/
theorem detectionLoop_cons (g : Nat → String) (fw fh fc p : Int) (d : Detection)
    (rest : List Detection) :
    detectionLoop g fw fh fc (d :: rest) p =
      if d.Confidence > MIN_CONF then
        if detect_hit g d then
          if fc - p > IMAGE_PACING then
            (( detectionLoop g fw fh fc rest fc).1,
              roi fw fh d :: ( detectionLoop g fw fh fc rest fc).2)
          else detectionLoop g fw fh fc rest p
        else detectionLoop g fw fh fc rest p
      else detectionLoop g fw fh fc rest p := by
  rw [detectionLoop]

/-- While the pace check fails the scan changes nothing. -/
theorem detectionLoop_paced (g : Nat → String) (fw fh fc p : Int) (dets : List Detection)
    (hp : ¬ fc - p > IMAGE_PACING) : detectionLoop g fw fh fc dets p = (p, []) := by
  induction dets with
  | nil => rfl
  | cons d rest ih =>
    rw [detectionLoop_cons, if_neg hp, ih]
    split_ifs <;> rfl

/-- Detections that fail the tests of lines 183-187 are skipped. -/
theorem detectionLoop_skip (g : Nat → String) (fw fh fc p : Int) (pre rest : List Detection)
    (hpre : ∀ x ∈ pre, ¬ (x.Confidence > MIN_CONF ∧ detect_hit g x = true)) :
    detectionLoop g fw fh fc (pre ++ rest) p = detectionLoop g fw fh fc rest p := by
  induction pre with
  | nil => rfl
  | cons x xs ih =>
    have hx := hpre x (List.mem_cons_self _ _)
    have hxs := ih (fun y hy => hpre y (List.mem_cons_of_mem _ hy))
    rw [List.cons_append, detectionLoop_cons]
    by_cases h1 : x.Confidence > MIN_CONF
    · have h2 : ¬ detect_hit g x = true := fun h => hx ⟨h1, h⟩
      rw [if_pos h1, if_neg h2]
      exact hxs
    · rw [if_neg h1]
      exact hxs

/-- The scan at its first detection that passes the tests of lines 183-187. -/
theorem detectionLoop_first (g : Nat → String) (fw fh fc p : Int) (pre post : List Detection)
    (d : Detection)
    (hpre : ∀ x ∈ pre, ¬ (x.Confidence > MIN_CONF ∧ detect_hit g x = true))
    (hd : d.Confidence > MIN_CONF ∧ detect_hit g d = true) :
    detectionLoop g fw fh fc (pre ++ d :: post) p =
      if fc - p > IMAGE_PACING then (fc, [roi fw fh d]) else (p, []) := by
  rw [detectionLoop_skip g fw fh fc p pre (d :: post) hpre]
  by_cases hp : fc - p > IMAGE_PACING
  · rw [if_pos hp]
    rw [detectionLoop_cons, if_pos hd.1, if_pos hd.2, if_pos hp,
      detectionLoop_paced g fw fh fc fc post (by unfold IMAGE_PACING; omega)]
  · rw [if_neg hp]
    exact detectionLoop_paced g fw fh fc p (d :: post) hp

/-- The scan of a list in two parts: the second part starts from the `pacer`
the first part leaves. -/
theorem detectionLoop_append (g : Nat → String) (fw fh fc : Int) (pre rest : List Detection) :
    ∀ p : Int, detectionLoop g fw fh fc (pre ++ rest) p =
      (( detectionLoop g fw fh fc rest (detectionLoop g fw fh fc pre p).1).1,
        (detectionLoop g fw fh fc pre p).2 ++
          ( detectionLoop g fw fh fc rest (detectionLoop g fw fh fc pre p).1).2) := by
  induction pre with
  | nil =>
    intro p
    rfl
  | cons x xs ih =>
    intro p
    rw [List.cons_append, detectionLoop_cons, detectionLoop_cons]
    split_ifs
    · rw [ih fc]
      rfl
    all_goals exact ih p

/-- A detection whose confidence fails the test of line 183 leaves the scan
as it would be without it. -/
theorem detectionLoop_drop (g : Nat → String) (fw fh fc p : Int) (pre post : List Detection)
    (d : Detection) (hd : ¬ d.Confidence > MIN_CONF) :
    detectionLoop g fw fh fc (pre ++ d :: post) p = detectionLoop g fw fh fc (pre ++ post) p := by
  rw [detectionLoop_append g fw fh fc pre (d :: post) p, detectionLoop_append g fw fh fc pre post p,
    detectionLoop_cons, if_neg hd]

/-- A list splits at its first element with a given property. -/
theorem split_first {α : Type} (P : α → Prop) (l : List α)
    (h : ∃ x ∈ l, P x) :
    ∃ pre d post, l = pre ++ d :: post ∧ (∀ x ∈ pre, ¬ P x) ∧ P d := by
  classical
  induction l with
  | nil =>
    obtain ⟨x, hx, _⟩ := h
    simp at hx
  | cons a t ih =>
    by_cases ha : P a
    · exact ⟨[], a, t, rfl, by simp, ha⟩
    · have ht : ∃ x ∈ t, P x := by
        obtain ⟨x, hx, hpx⟩ := h
        rcases List.mem_cons.mp hx with rfl | hx
        · exact absurd hpx ha
        · exact ⟨x, hx, hpx⟩
      obtain ⟨pre, d, post, hl, hpre, hd⟩ := ih ht
      refine ⟨a :: pre, d, post, by rw [hl]; rfl, ?_, hd⟩
      intro x hx
      rcases List.mem_cons.mp hx with rfl | hx
      · exact ha
      · exact hpre x hx

/-- Outcome of a scan: nothing changes, or the pace check passed and one
rectangle, that of a detection of the frame, is selected and `pacer` becomes
`frame_count`. -/
theorem detectionLoop_cases (g : Nat → String) (fw fh fc p : Int) (dets : List Detection) :
    detectionLoop g fw fh fc dets p = (p, []) ∨
      (fc - p > IMAGE_PACING ∧ ∃ d ∈ dets, detectionLoop g fw fh fc dets p = (fc, [roi fw fh d])) := by
  by_cases hq : ∃ x ∈ dets, x.Confidence > MIN_CONF ∧ detect_hit g x = true
  · obtain ⟨pre, d, post, hl, hpre, hd⟩ := split_first _ dets hq
    have h := detectionLoop_first g fw fh fc p pre post d hpre hd
    rw [← hl] at h
    by_cases hp : fc - p > IMAGE_PACING
    · rw [if_pos hp] at h
      refine Or.inr ⟨hp, d, ?_, h⟩
      rw [hl]
      exact List.mem_append_right _ (List.mem_cons_self _ _)
    · rw [if_neg hp] at h
      exact Or.inl h
  · push_neg at hq
    have h := detectionLoop_skip g fw fh fc p dets [] (fun x hx hc => hq x hx hc.1 hc.2)
    rw [List.append_nil] at h
    exact Or.inl h

/-- The scan of a frame without a qualifying detection changes nothing. -/
theorem detectionLoop_none (g : Nat → String) (fw fh fc p : Int) (dets : List Detection)
    (hf : ∀ d ∈ dets, IsFloat32 d.Confidence) (hq : ∀ d ∈ dets, ¬ Qualifying g d) :
    detectionLoop g fw fh fc dets p = (p, []) := by
  have h := detectionLoop_skip g fw fh fc p dets []
    (fun x hx hc => hq x hx ((hit_iff_qualifying g x (hf x hx)).mp hc))
  rw [List.append_nil] at h
  exact h

/-- The scan of a frame at its first qualifying detection. -/
theorem detectionLoop_first_qualifying (g : Nat → String) (fw fh fc p : Int)
    (pre post : List Detection) (d : Detection)
    (hf : ∀ x ∈ pre, IsFloat32 x.Confidence) (hfd : IsFloat32 d.Confidence)
    (hpre : ∀ x ∈ pre, ¬ Qualifying g x) (hd : Qualifying g d) :
    detectionLoop g fw fh fc (pre ++ d :: post) p =
      if fc - p > 20 then (fc, [roi fw fh d]) else (p, []) :=
  detectionLoop_first g fw fh fc p pre post d
    (fun x hx hc => hpre x hx ((hit_iff_qualifying g x (hf x hx)).mp hc))
    ((hit_iff_qualifying g d hfd).mpr hd)

theorem isFloat32_seven_eighths : IsFloat32 (7 / 8) :=
  ⟨7, 3, by decide, Or.inr ⟨by decide, by norm_num⟩⟩

theorem dogBox_qualifying : Qualifying sampleDesc dogBox := by
  unfold Qualifying
  refine ⟨by norm_num [dogBox], ?_, by norm_num [dogBox, Detection.Width],
    by norm_num [dogBox, Detection.Height]⟩
  exact List.infix_refl _

/-! ## Facts about the loop -/

theorem cropFrames_append (l1 l2 : List Event) :
    cropFrames (l1 ++ l2) = cropFrames l1 ++ cropFrames l2 := by
  unfold cropFrames
  exact List.filterMap_append _ _ _

theorem cropFrames_outputEvents (cfg : Setup) (fc : Int) : cropFrames (outputEvents cfg fc) = [] := by
  unfold outputEvents
  split_ifs <;> rfl

theorem cropFrames_cropEvents_nil (fc w h : Int) : cropFrames (cropEvents fc w h []) = [] := rfl

theorem cropFrames_cropEvents_one (fc w h : Int) (r : Int4) :
    cropFrames (cropEvents fc w h [r]) = [fc] := rfl

/-- A loop that has ended ignores further iterations. -/
theorem step_stopped (cfg : Setup) (s : LoopState) (it : Iteration) (h : s.running = false) :
    step cfg s it = s := by
  unfold LoopState.running at h
  have hb : (s.signal_recieved || s.exited) = true := by
    cases hc : (s.signal_recieved || s.exited)
    · rw [hc] at h
      exact absurd h (by decide)
    · rfl
  unfold step
  rw [if_pos hb]

/-- A failed capture changes neither the counters nor the log. -/
theorem step_failed (cfg : Setup) (s : LoopState) (b os sig : Bool) :
    (step cfg s ⟨Capture.failed b, os, sig⟩).pacer = s.pacer ∧
    (step cfg s ⟨Capture.failed b, os, sig⟩).frame_count = s.frame_count ∧
    (step cfg s ⟨Capture.failed b, os, sig⟩).log = s.log := by
  unfold step loopBody
  by_cases h : (s.signal_recieved || s.exited) = true
  · rw [if_pos h]
    exact ⟨rfl, rfl, rfl⟩
  · rw [if_neg h]
    cases b <;> exact ⟨rfl, rfl, rfl⟩

/-- A captured frame in a running loop: the counters, the log and the
continuation of the loop after the pass. -/
theorem step_frame (cfg : Setup) (s : LoopState) (w h : Int) (dets : List Detection)
    (os sig : Bool) (hrun : s.running = true) :
    (step cfg s ⟨Capture.frame w h dets, os, sig⟩).pacer =
      (detectionLoop cfg.GetClassDesc w h (s.frame_count + 1) dets s.pacer).1 ∧
    (step cfg s ⟨Capture.frame w h dets, os, sig⟩).frame_count = s.frame_count + 1 ∧
    (step cfg s ⟨Capture.frame w h dets, os, sig⟩).log =
      s.log ++ cropEvents (s.frame_count + 1) w h
        (detectionLoop cfg.GetClassDesc w h (s.frame_count + 1) dets s.pacer).2
        ++ outputEvents cfg (s.frame_count + 1) ∧
    (step cfg s ⟨Capture.frame w h dets, os, sig⟩).running = (!(cfg.output && !os) && !sig) := by
  unfold LoopState.running at hrun
  have hne : ¬ (s.signal_recieved || s.exited) = true := by simpa using hrun
  have h1 : s.signal_recieved = false := by
    cases hs : s.signal_recieved
    · rfl
    · rw [hs] at hne
      simp at hne
  have h2 : s.exited = false := by
    cases hs : s.exited
    · rfl
    · rw [hs] at hne
      simp at hne
  unfold step
  rw [if_neg hne]
  unfold loopBody LoopState.running
  refine ⟨rfl, rfl, rfl, ?_⟩
  simp only [h1, h2]
  cases cfg.output <;> cases os <;> cases sig <;> rfl

/-- Invariant of the loop behind the pacing claims: `pacer` never exceeds
`frame_count`, no crop was made after frame `pacer`, and two crops at
different frames are more than `IMAGE_PACING` frames apart. -/
theorem step_inv (cfg : Setup) (s : LoopState) (it : Iteration)
    (h1 : s.pacer ≤ s.frame_count)
    (h2 : ∀ f ∈ cropFrames s.log, f ≤ s.pacer)
    (h3 : ∀ f1 ∈ cropFrames s.log, ∀ f2 ∈ cropFrames s.log, f1 < f2 → f2 - f1 > 20) :
    (step cfg s it).pacer ≤ (step cfg s it).frame_count ∧
    (∀ f ∈ cropFrames (step cfg s it).log, f ≤ (step cfg s it).pacer) ∧
    (∀ f1 ∈ cropFrames (step cfg s it).log, ∀ f2 ∈ cropFrames (step cfg s it).log,
      f1 < f2 → f2 - f1 > 20) := by
  cases hrun : s.running
  · rw [step_stopped cfg s it hrun]
    exact ⟨h1, h2, h3⟩
  · obtain ⟨cap, os, sig⟩ := it
    cases cap with
    | failed b =>
      obtain ⟨e1, e2, e3⟩ := step_failed cfg s b os sig
      rw [e1, e2, e3]
      exact ⟨h1, h2, h3⟩
    | frame w h dets =>
      obtain ⟨e1, e2, e3, _⟩ := step_frame cfg s w h dets os sig hrun
      rw [e1, e2, e3, cropFrames_append, cropFrames_append, cropFrames_outputEvents,
        List.append_nil]
      rcases detectionLoop_cases cfg.GetClassDesc w h (s.frame_count + 1) s.pacer dets with
        hc | ⟨hp, d, _, hc⟩
      · rw [hc, cropFrames_cropEvents_nil, List.append_nil]
        exact ⟨by show s.pacer ≤ s.frame_count + 1; omega, h2, h3⟩
      · rw [hc, cropFrames_cropEvents_one]
        unfold IMAGE_PACING at hp
        refine ⟨le_refl _, ?_, ?_⟩
        · intro f hf
          rcases List.mem_append.mp hf with hf | hf
          · have := h2 f hf
            show f ≤ s.frame_count + 1
            omega
          · rw [List.mem_singleton.mp hf]
        · intro f1 hf1 f2 hf2 hlt
          rcases List.mem_append.mp hf1 with hf1 | hf1
          · rcases List.mem_append.mp hf2 with hf2 | hf2
            · exact h3 f1 hf1 f2 hf2 hlt
            · rw [List.mem_singleton.mp hf2]
              have := h2 f1 hf1
              omega
          · rw [List.mem_singleton.mp hf1] at hlt ⊢
            rcases List.mem_append.mp hf2 with hf2 | hf2
            · have := h2 f2 hf2
              omega
            · rw [List.mem_singleton.mp hf2] at hlt
              omega

theorem foldl_step_inv (cfg : Setup) (its : List Iteration) :
    ∀ s : LoopState, s.pacer ≤ s.frame_count →
      (∀ f ∈ cropFrames s.log, f ≤ s.pacer) →
      (∀ f1 ∈ cropFrames s.log, ∀ f2 ∈ cropFrames s.log, f1 < f2 → f2 - f1 > 20) →
      (its.foldl (step cfg) s).pacer ≤ (its.foldl (step cfg) s).frame_count ∧
      (∀ f1 ∈ cropFrames (its.foldl (step cfg) s).log,
        ∀ f2 ∈ cropFrames (its.foldl (step cfg) s).log, f1 < f2 → f2 - f1 > 20) := by
  induction its with
  | nil =>
    intro s h1 _ h3
    exact ⟨h1, h3⟩
  | cons it rest ih =>
    intro s h1 h2 h3
    obtain ⟨a, b, c⟩ := step_inv cfg s it h1 h2 h3
    exact ih (step cfg s it) a b c

theorem run_inv (cfg : Setup) (its : List Iteration) :
    (run cfg its).pacer ≤ (run cfg its).frame_count ∧
    (∀ f1 ∈ cropFrames (run cfg its).log,
      ∀ f2 ∈ cropFrames (run cfg its).log, f1 < f2 → f2 - f1 > 20) := by
  unfold run
  apply foldl_step_inv
  · decide
  · intro f hf
    simp [init, cropFrames] at hf
  · intro f hf
    simp [init, cropFrames] at hf

/-- While no captured frame has a qualifying detection the loop keeps its
initial `pacer` and makes no crop. -/
theorem foldl_step_quiet (cfg : Setup) (its : List Iteration) :
    ∀ s : LoopState, s.pacer = -21 → 0 ≤ s.frame_count → cropFrames s.log = [] →
      (∀ it ∈ its, ∀ d ∈ it.detections, IsFloat32 d.Confidence) →
      (∀ it ∈ its, ∀ d ∈ it.detections, ¬ Qualifying cfg.GetClassDesc d) →
      (its.foldl (step cfg) s).pacer = -21 ∧ 0 ≤ (its.foldl (step cfg) s).frame_count ∧
        cropFrames (its.foldl (step cfg) s).log = [] := by
  induction its with
  | nil =>
    intro s h1 h2 h3 _ _
    exact ⟨h1, h2, h3⟩
  | cons it rest ih =>
    intro s h1 h2 h3 hf hq
    have hfr : ∀ i ∈ rest, ∀ d ∈ i.detections, IsFloat32 d.Confidence :=
      fun i hi => hf i (List.mem_cons_of_mem _ hi)
    have hqr : ∀ i ∈ rest, ∀ d ∈ i.detections, ¬ Qualifying cfg.GetClassDesc d :=
      fun i hi => hq i (List.mem_cons_of_mem _ hi)
    have hfi := hf it (List.mem_cons_self _ _)
    have hqi := hq it (List.mem_cons_self _ _)
    rw [List.foldl_cons]
    cases hrun : s.running
    · rw [step_stopped cfg s it hrun]
      exact ih s h1 h2 h3 hfr hqr
    · obtain ⟨cap, os, sig⟩ := it
      cases cap with
      | failed b =>
        obtain ⟨e1, e2, e3⟩ := step_failed cfg s b os sig
        exact ih _ (by rw [e1]; exact h1) (by rw [e2]; exact h2) (by rw [e3]; exact h3) hfr hqr
      | frame w h dets =>
        obtain ⟨e1, e2, e3, _⟩ := step_frame cfg s w h dets os sig hrun
        have hn := detectionLoop_none cfg.GetClassDesc w h (s.frame_count + 1) s.pacer dets hfi hqi
        rw [hn] at e1 e3
        refine ih _ (by rw [e1]; exact h1) (by rw [e2]; omega) ?_ hfr hqr
        rw [e3, cropFrames_append, cropFrames_append, cropFrames_outputEvents,
          cropFrames_cropEvents_nil, h3]
        rfl

theorem dogBox_hit : dogBox.Confidence > MIN_CONF ∧ detect_hit sampleDesc dogBox = true :=
  (hit_iff_qualifying sampleDesc dogBox isFloat32_seven_eighths).mpr dogBox_qualifying

/-- A frame showing `dogBox`, in a running loop with both outputs. -/
theorem step_dogFrame (cfg : Setup) (s : LoopState) (fc p : Int) (cf : List Int)
    (hrun : s.running = true) (hg : cfg.GetClassDesc = sampleDesc) (ho : cfg.output = true)
    (hfc : s.frame_count = fc) (hp : s.pacer = p) (hcf : cropFrames s.log = cf) :
    (step cfg s dogFrame).running = true ∧
    (step cfg s dogFrame).frame_count = fc + 1 ∧
    (step cfg s dogFrame).pacer = (if fc + 1 - p > 20 then fc + 1 else p) ∧
    cropFrames (step cfg s dogFrame).log = cf ++ (if fc + 1 - p > 20 then [fc + 1] else []) := by
  subst hfc hp hcf
  obtain ⟨e1, e2, e3, e4⟩ := step_frame cfg s 1920 1080 [dogBox] true false hrun
  have hd := detectionLoop_first sampleDesc 1920 1080 (s.frame_count + 1) s.pacer [] [] dogBox
    (by simp) dogBox_hit
  rw [List.nil_append] at hd
  rw [hg, hd] at e1 e3
  unfold dogFrame
  refine ⟨?_, e2, ?_, ?_⟩
  · rw [e4, ho]
    rfl
  · rw [e1]
    unfold IMAGE_PACING
    split_ifs <;> rfl
  · rw [e3, cropFrames_append, cropFrames_append, cropFrames_outputEvents, List.append_nil]
    unfold IMAGE_PACING
    split_ifs <;> rfl

/-- A run of frames without detections, in a running loop whose frame output
stays open. -/
theorem foldl_emptyFrames_aux (cfg : Setup) (n : Nat) :
    ∀ s : LoopState, s.running = true →
      ((List.replicate n emptyFrame).foldl (step cfg) s).running = true ∧
      ((List.replicate n emptyFrame).foldl (step cfg) s).frame_count = s.frame_count + n ∧
      ((List.replicate n emptyFrame).foldl (step cfg) s).pacer = s.pacer ∧
      cropFrames ((List.replicate n emptyFrame).foldl (step cfg) s).log = cropFrames s.log := by
  induction n with
  | zero =>
    intro s hrun
    exact ⟨hrun, by simp, rfl, rfl⟩
  | succ k ih =>
    intro s hrun
    obtain ⟨e1, e2, e3, e4⟩ := step_frame cfg s 1920 1080 [] true false hrun
    have hr : (step cfg s emptyFrame).running = true := by
      unfold emptyFrame
      rw [e4]
      cases cfg.output <;> rfl
    obtain ⟨a, b, c, d⟩ := ih (step cfg s emptyFrame) hr
    rw [List.replicate_succ, List.foldl_cons]
    refine ⟨a, ?_, ?_, ?_⟩
    · rw [b]
      unfold emptyFrame
      rw [e2]
      push_cast
      ring
    · rw [c]
      unfold emptyFrame
      rw [e1]
      rfl
    · rw [d]
      unfold emptyFrame
      rw [e3, cropFrames_append, cropFrames_append, cropFrames_outputEvents]
      simp [detectionLoop, cropFrames_cropEvents_nil]

theorem foldl_emptyFrames (cfg : Setup) (n : Nat) (s : LoopState) (fc p : Int) (cf : List Int)
    (hrun : s.running = true)
    (hfc : s.frame_count = fc) (hp : s.pacer = p) (hcf : cropFrames s.log = cf) :
    ((List.replicate n emptyFrame).foldl (step cfg) s).running = true ∧
    ((List.replicate n emptyFrame).foldl (step cfg) s).frame_count = fc + n ∧
    ((List.replicate n emptyFrame).foldl (step cfg) s).pacer = p ∧
    cropFrames ((List.replicate n emptyFrame).foldl (step cfg) s).log = cf := by
  subst hfc hp hcf
  exact foldl_emptyFrames_aux cfg n s hrun

/-- The frame output is rendered only when it was created (the guard of
line 213). -/
theorem output_render_guarded (cfg : Setup) (its : List Iteration) :
    ∀ e ∈ (run cfg its).log, e.call = Call.Render Output.output → cfg.output = true := by
  have key : ∀ (l : List Iteration) (s : LoopState),
      (∀ e ∈ s.log, e.call = Call.Render Output.output → cfg.output = true) →
      ∀ e ∈ (l.foldl (step cfg) s).log, e.call = Call.Render Output.output → cfg.output = true := by
    intro l
    induction l with
    | nil =>
      intro s hs
      exact hs
    | cons it rest ih =>
      intro s hs
      rw [List.foldl_cons]
      apply ih
      cases hrun : s.running
      · rw [step_stopped cfg s it hrun]
        exact hs
      · obtain ⟨cap, os, sig⟩ := it
        cases cap with
        | failed b =>
          rw [(step_failed cfg s b os sig).2.2]
          exact hs
        | frame w h dets =>
          rw [(step_frame cfg s w h dets os sig hrun).2.2.1]
          intro e he hc
          rcases List.mem_append.mp he with he | he
          · rcases List.mem_append.mp he with he | he
            · exact hs e he hc
            · unfold cropEvents at he
              rw [List.mem_flatMap] at he
              obtain ⟨r, _, hr⟩ := he
              simp at hr
              rcases hr with rfl | rfl
              · simp at hc
              · simp at hc
          · unfold outputEvents at he
            by_cases ho : cfg.output = true
            · exact ho
            · rw [if_neg ho] at he
              simp at he
  unfold run
  apply key
  intro e he
  simp [init] at he

/-! ## Claims on the region of interest -/

/-- C1 (ROI containment): for a frame whose extents are `int` values of at
least 416, the rectangle computed for any detection is 416 wide and 416 high
and lies inside the frame; so does every rectangle the scan of a frame passes
to `cudaCrop`, and so does the rectangle of lines 194-202 for any value that
the conversion of the float centre to `unsigned int` may leave in `lr_center`
and `tb_center`. -/
theorem roi_containment (fw fh : Int)
    (hw1 : 416 ≤ fw) (hw2 : fw ≤ INT_MAX) (hh1 : 416 ≤ fh) (hh2 : fh ≤ INT_MAX) :
    (∀ d : Detection,
      (roi fw fh d).z - (roi fw fh d).x = 416 ∧ (roi fw fh d).w - (roi fw fh d).y = 416 ∧
      0 ≤ (roi fw fh d).x ∧ (roi fw fh d).x + 416 ≤ fw ∧
      0 ≤ (roi fw fh d).y ∧ (roi fw fh d).y + 416 ≤ fh) ∧
    (∀ (g : Nat → String) (fc p : Int) (dets : List Detection),
      ∀ r ∈ (detectionLoop g fw fh fc dets p).2,
        r.z - r.x = 416 ∧ r.w - r.y = 416 ∧
        0 ≤ r.x ∧ r.x + 416 ≤ fw ∧ 0 ≤ r.y ∧ r.y + 416 ≤ fh) ∧
    (∀ c0x c0y : Int,
      (make_roi (lr_clamp fw c0x) (tb_clamp fh c0y)).z
        - (make_roi (lr_clamp fw c0x) (tb_clamp fh c0y)).x = 416 ∧
      (make_roi (lr_clamp fw c0x) (tb_clamp fh c0y)).w
        - (make_roi (lr_clamp fw c0x) (tb_clamp fh c0y)).y = 416 ∧
      0 ≤ (make_roi (lr_clamp fw c0x) (tb_clamp fh c0y)).x ∧
      (make_roi (lr_clamp fw c0x) (tb_clamp fh c0y)).x + 416 ≤ fw ∧
      0 ≤ (make_roi (lr_clamp fw c0x) (tb_clamp fh c0y)).y ∧
      (make_roi (lr_clamp fw c0x) (tb_clamp fh c0y)).y + 416 ≤ fh) := by
  have key : ∀ d : Detection,
      (roi fw fh d).z - (roi fw fh d).x = 416 ∧ (roi fw fh d).w - (roi fw fh d).y = 416 ∧
      0 ≤ (roi fw fh d).x ∧ (roi fw fh d).x + 416 ≤ fw ∧
      0 ≤ (roi fw fh d).y ∧ (roi fw fh d).y + 416 ≤ fh :=
    fun d => make_roi_inside fw fh (f2u (centerX d)) (f2u (centerY d)) hw1 hw2 hh1 hh2
  refine ⟨key, ?_, fun c0x c0y => make_roi_inside fw fh c0x c0y hw1 hw2 hh1 hh2⟩
  intro g fc p dets r hr
  obtain ⟨d, _, rfl⟩ := detectionLoop_mem g fw fh fc dets p r hr
  exact key d

/-- Evaluation of `roi` from the two converted centres. -/
theorem roi_eval (fw fh : Int) (d : Detection) (cx cy : Int)
    (hw1 : 416 ≤ fw) (hw2 : fw ≤ INT_MAX) (hh1 : 416 ≤ fh) (hh2 : fh ≤ INT_MAX)
    (hx : f2u (centerX d) = cx) (hy : f2u (centerY d) = cy) :
    roi fw fh d =
      { x := max 208 (min cx (fw - 208)) - 208, y := max 208 (min cy (fh - 208)) - 208,
        z := max 208 (min cx (fw - 208)) + 208, w := max 208 (min cy (fh - 208)) + 208 } := by
  obtain ⟨h1, h2, h3, h4⟩ := roi_fields fw fh d hw1 hw2 hh1 hh2
  rw [lr_center_eq fw d hw1 hw2, hx] at h1 h2
  rw [tb_center_eq fh d hh1 hh2, hy] at h3 h4
  rw [← h1, ← h2, ← h3, ← h4]

/-! ## The rounding on concrete boxes -/

theorem rnd32_int_fixed (n : Int) (hn : |n| ≤ 16777216) : rnd32 (n : ℚ) = n := by
  have := rnd32_fixed n 0 hn (by decide)
  simpa using this

/-- The centre of line 192 for the float value `h` of `Width()/2` and the
float value `c` of the sum. -/
theorem centerX_eval (d : Detection) (h c : ℚ) (h1 : rnd32 (d.Width / 2) = h)
    (h2 : rnd32 (d.Left + h) = c) : centerX d = c := by
  unfold centerX
  rw [h1, h2]

theorem centerY_eval (d : Detection) (h c : ℚ) (h1 : rnd32 (d.Height / 2) = h)
    (h2 : rnd32 (d.Top + h) = c) : centerY d = c := by
  unfold centerY
  rw [h1, h2]

/-- The vertical centre of the boxes with top 300 and bottom 500. -/
theorem centerY_300_500 (d : Detection) (ht : d.Top = 300) (hb : d.Bottom = 500) :
    centerY d = 400 := by
  apply centerY_eval d 100 400
  · have e : d.Height / 2 = ((100 : Int) : ℚ) := by
      unfold Detection.Height
      rw [ht, hb]
      norm_num
    rw [e, rnd32_int_fixed 100 (by decide)]
    norm_num
  · have e : d.Top + 100 = ((400 : Int) : ℚ) := by
      rw [ht]
      norm_num
    rw [e, rnd32_int_fixed 400 (by decide)]
    norm_num

theorem centerX_halfPixelBox : centerX halfPixelBox = 601 / 2 := by
  apply centerX_eval halfPixelBox 208 (601 / 2)
  · have e : halfPixelBox.Width / 2 = ((208 : Int) : ℚ) := by
      norm_num [Detection.Width, halfPixelBox]
    rw [e, rnd32_int_fixed 208 (by decide)]
    norm_num
  · have e : halfPixelBox.Left + 208 = ((601 : Int) : ℚ) * 2 ^ (-1 : Int) := by
      norm_num [halfPixelBox]
    rw [e, rnd32_fixed 601 (-1) (by decide) (by decide)]
    norm_num

theorem centerX_cornerBox : centerX cornerBox = 10 := by
  apply centerX_eval cornerBox 10 10
  · have e : cornerBox.Width / 2 = ((10 : Int) : ℚ) := by
      norm_num [Detection.Width, cornerBox]
    rw [e, rnd32_int_fixed 10 (by decide)]
    norm_num
  · have e : cornerBox.Left + 10 = ((10 : Int) : ℚ) := by
      norm_num [cornerBox]
    rw [e, rnd32_int_fixed 10 (by decide)]
    norm_num

theorem centerY_cornerBox : centerY cornerBox = 10 := by
  apply centerY_eval cornerBox 10 10
  · have e : cornerBox.Height / 2 = ((10 : Int) : ℚ) := by
      norm_num [Detection.Height, cornerBox]
    rw [e, rnd32_int_fixed 10 (by decide)]
    norm_num
  · have e : cornerBox.Top + 10 = ((10 : Int) : ℚ) := by
      norm_num [cornerBox]
    rw [e, rnd32_int_fixed 10 (by decide)]
    norm_num

theorem roi_halfPixelBox : roi 1920 1080 halfPixelBox = { x := 92, y := 192, z := 508, w := 608 } := by
  rw [roi_eval 1920 1080 halfPixelBox 300 400 (by norm_num) (by norm_num [INT_MAX])
    (by norm_num) (by norm_num [INT_MAX])
    (by rw [centerX_halfPixelBox]; norm_num [f2u])
    (by rw [centerY_300_500 halfPixelBox rfl rfl]; norm_num [f2u])]
  norm_num

/-- The binary32 addition of line 192 rounds the centre of `roundedCentreBox`
up from `256 - 2^-17` to 256: the crop starts at 48, one pixel to the right of
where the exact centre, truncated to 255, would put it. -/
theorem roi_roundedCentreBox :
    centerX roundedCentreBox = 256 ∧
    ⌊roundedCentreBox.Left + roundedCentreBox.Width / 2⌋ = 255 ∧
    roi 1920 1080 roundedCentreBox = { x := 48, y := 192, z := 464, w := 608 } := by
  have hc : centerX roundedCentreBox = 256 := by
    apply centerX_eval roundedCentreBox (1 / 131072) 256
    · have e : roundedCentreBox.Width / 2 = ((1 : Int) : ℚ) * 2 ^ (-17 : Int) := by
        norm_num [Detection.Width, roundedCentreBox]
      rw [e, rnd32_fixed 1 (-17) (by decide) (by decide)]
      norm_num
    · have e : roundedCentreBox.Left + 1 / 131072 = 256 - 1 / 131072 := by
        norm_num [roundedCentreBox]
      rw [e, rnd32_eval _ 7 (by decide) (by norm_num [abs_of_pos]) (by norm_num [abs_of_pos])]
      norm_num [rne]
  refine ⟨hc, by norm_num [Detection.Width, roundedCentreBox], ?_⟩
  rw [roi_eval 1920 1080 roundedCentreBox 256 400 (by norm_num) (by norm_num [INT_MAX])
    (by norm_num) (by norm_num [INT_MAX])
    (by rw [hc]; norm_num [f2u])
    (by rw [centerY_300_500 roundedCentreBox rfl rfl]; norm_num [f2u])]
  norm_num

/-- The binary32 arithmetic of line 192 rounds the centre of `roundUpBox` up
to 300: the box passes the size check, lies inside the frame 1920x1080, and
its left edge `92 - 2^-16` is to the left of `roi.x = 92`. -/
theorem roi_roundUpBox :
    roundUpBox.Width ≤ 416 ∧ roundUpBox.Height ≤ 416 ∧
    0 ≤ roundUpBox.Left ∧ roundUpBox.Right ≤ 1920 ∧ 0 ≤ roundUpBox.Top ∧ roundUpBox.Bottom ≤ 1080 ∧
    roi 1920 1080 roundUpBox = { x := 92, y := 192, z := 508, w := 608 } ∧
    roundUpBox.Left < ((roi 1920 1080 roundUpBox).x : ℚ) := by
  have hc : centerX roundUpBox = 300 := by
    apply centerX_eval roundUpBox 208 300
    · have e : roundUpBox.Width / 2 = 208 - 1 / 131072 := by
        norm_num [Detection.Width, roundUpBox]
      rw [e, rnd32_eval _ 7 (by decide) (by norm_num [abs_of_pos]) (by norm_num [abs_of_pos])]
      norm_num [rne]
    · have e : roundUpBox.Left + 208 = 300 - 1 / 65536 := by
        norm_num [roundUpBox]
      rw [e, rnd32_eval _ 8 (by decide) (by norm_num [abs_of_pos]) (by norm_num [abs_of_pos])]
      norm_num [rne]
  have hr : roi 1920 1080 roundUpBox = { x := 92, y := 192, z := 508, w := 608 } := by
    rw [roi_eval 1920 1080 roundUpBox 300 400 (by norm_num) (by norm_num [INT_MAX])
      (by norm_num) (by norm_num [INT_MAX])
      (by rw [hc]; norm_num [f2u])
      (by rw [centerY_300_500 roundUpBox rfl rfl]; norm_num [f2u])]
    norm_num
  rw [hr]
  norm_num [Detection.Width, Detection.Height, roundUpBox]

/-- The box `onePixelBox` passes the size check of the program (its width
`416 + 2^-17 + 2^-24` is 416 as a float), lies inside the frame 1920x1080,
and its right edge 417 is exactly one pixel beyond `roi.z = 416`. -/
theorem roi_onePixelBox :
    rnd32 onePixelBox.Width = 416 ∧ onePixelBox.Height ≤ 416 ∧
    0 ≤ onePixelBox.Left ∧ onePixelBox.Right ≤ 1920 ∧
    0 ≤ onePixelBox.Top ∧ onePixelBox.Bottom ≤ 1080 ∧
    roi 1920 1080 onePixelBox = { x := 0, y := 192, z := 416, w := 608 } ∧
    onePixelBox.Right = ((roi 1920 1080 onePixelBox).z : ℚ) + 1 := by
  have hw : rnd32 onePixelBox.Width = 416 := by
    have e : onePixelBox.Width = 416 + 129 / 16777216 := by
      norm_num [Detection.Width, onePixelBox]
    rw [e, rnd32_eval _ 8 (by decide) (by norm_num [abs_of_pos]) (by norm_num [abs_of_pos])]
    norm_num [rne]
  have hc : centerX onePixelBox = 13697023 / 65536 := by
    apply centerX_eval onePixelBox 208 (13697023 / 65536)
    · have e : onePixelBox.Width / 2 = 208 + 129 / 33554432 := by
        norm_num [Detection.Width, onePixelBox]
      rw [e, rnd32_eval _ 7 (by decide) (by norm_num [abs_of_pos]) (by norm_num [abs_of_pos])]
      norm_num [rne]
    · have e : onePixelBox.Left + 208 = 209 - 129 / 16777216 := by
        norm_num [onePixelBox]
      rw [e, rnd32_eval _ 7 (by decide) (by norm_num [abs_of_pos]) (by norm_num [abs_of_pos])]
      norm_num [rne]
  have hr : roi 1920 1080 onePixelBox = { x := 0, y := 192, z := 416, w := 608 } := by
    rw [roi_eval 1920 1080 onePixelBox 208 400 (by norm_num) (by norm_num [INT_MAX])
      (by norm_num) (by norm_num [INT_MAX])
      (by rw [hc]; norm_num [f2u])
      (by rw [centerY_300_500 onePixelBox rfl rfl]; norm_num [f2u])]
    norm_num
  rw [hr]
  refine ⟨hw, ?_⟩
  norm_num [Detection.Height, onePixelBox]

/-- Beyond `2^24` pixels binary32 cannot hold every pixel position: in a
frame 2147483647 wide the box `farBox`, 384 wide at `2^30`, gets a centre
rounded from `2^30 + 192` to `2^30 + 256`, and the crop starts 48 pixels to
the right of the left edge of the box. -/
theorem roi_farBox :
    farBox.Width ≤ 416 ∧ farBox.Height ≤ 416 ∧
    0 ≤ farBox.Left ∧ farBox.Right ≤ 2147483647 ∧ 0 ≤ farBox.Top ∧ farBox.Bottom ≤ 1080 ∧
    ((roi 2147483647 1080 farBox).x : ℚ) = farBox.Left + 48 := by
  have hc : centerX farBox = 1073742080 := by
    apply centerX_eval farBox 192 1073742080
    · have e : farBox.Width / 2 = ((192 : Int) : ℚ) := by
        norm_num [Detection.Width, farBox]
      rw [e, rnd32_int_fixed 192 (by decide)]
      norm_num
    · have e : farBox.Left + 192 = 1073742016 := by
        norm_num [farBox]
      rw [e, rnd32_eval _ 30 (by decide) (by norm_num [abs_of_pos]) (by norm_num [abs_of_pos])]
      norm_num [rne]
  have hr : roi 2147483647 1080 farBox = { x := 1073741872, y := 192, z := 1073742288, w := 608 } := by
    rw [roi_eval 2147483647 1080 farBox 1073742080 400 (by norm_num) (by norm_num [INT_MAX])
      (by norm_num) (by norm_num [INT_MAX])
      (by rw [hc]; norm_num [f2u])
      (by rw [centerY_300_500 farBox rfl rfl]; norm_num [f2u])]
    norm_num
  rw [hr]
  norm_num [Detection.Width, Detection.Height, farBox]

/-! ## Claims on the region of interest, continued -/

/-- Witness of C1: the frame 1920x1080 and `halfPixelBox`. -/
theorem roi_containment_witness :
    (roi 1920 1080 halfPixelBox).z - (roi 1920 1080 halfPixelBox).x = 416 ∧
    (roi 1920 1080 halfPixelBox).w - (roi 1920 1080 halfPixelBox).y = 416 ∧
    0 ≤ (roi 1920 1080 halfPixelBox).x ∧ (roi 1920 1080 halfPixelBox).x + 416 ≤ 1920 ∧
    0 ≤ (roi 1920 1080 halfPixelBox).y ∧ (roi 1920 1080 halfPixelBox).y + 416 ≤ 1080 :=
  (roi_containment 1920 1080 (by decide) (by decide) (by decide) (by decide)).1 halfPixelBox

/-- C8 as stated fails: in the frame 1920x1080 the centre (300.5, 400) of
`halfPixelBox`, the same in exact and in binary32 arithmetic, is at least 208
from every edge, yet `roi.x` is 92 and not `300.5 - 208`, and `roi.z` is 508
and not `300.5 + 208`. -/
theorem roi_centering_exact_fails :
    (416 : Int) ≤ 1920 ∧ (416 : Int) ≤ 1080 ∧
    halfPixelBox.Left + halfPixelBox.Width / 2 = 601 / 2 ∧ centerX halfPixelBox = 601 / 2 ∧
    halfPixelBox.Top + halfPixelBox.Height / 2 = 400 ∧ centerY halfPixelBox = 400 ∧
    208 ≤ centerX halfPixelBox ∧ centerX halfPixelBox ≤ 1920 - 208 ∧
    208 ≤ centerY halfPixelBox ∧ centerY halfPixelBox ≤ 1080 - 208 ∧
    ((roi 1920 1080 halfPixelBox).x : ℚ) ≠ centerX halfPixelBox - 208 ∧
    ((roi 1920 1080 halfPixelBox).z : ℚ) ≠ centerX halfPixelBox + 208 := by
  rw [roi_halfPixelBox, centerX_halfPixelBox, centerY_300_500 halfPixelBox rfl rfl]
  norm_num [Detection.Width, Detection.Height, halfPixelBox]

/-- C8 (ROI centering), amended: when the centre `(cx, cy)` of a detection,
as lines 192-193 compute it in binary32, is at least 208 from every edge of the frame, no clamping is applied
(`lr_center` and `tb_center` are the centre truncated to integers) and the
rectangle is centred on the truncated centre: `roi.x = trunc cx - 208`,
`roi.z = trunc cx + 208`, `roi.y = trunc cy - 208`, `roi.w = trunc cy + 208`. -/
theorem roi_centering_truncated (fw fh : Int) (d : Detection)
    (hw1 : 416 ≤ fw) (hw2 : fw ≤ INT_MAX) (hh1 : 416 ≤ fh) (hh2 : fh ≤ INT_MAX)
    (hx1 : 208 ≤ centerX d) (hx2 : centerX d ≤ fw - 208)
    (hy1 : 208 ≤ centerY d) (hy2 : centerY d ≤ fh - 208) :
    lr_center fw d = f2u (centerX d) ∧ f2u (centerX d) = ⌊centerX d⌋ ∧
    tb_center fh d = f2u (centerY d) ∧ f2u (centerY d) = ⌊centerY d⌋ ∧
    (roi fw fh d).x = ⌊centerX d⌋ - 208 ∧ (roi fw fh d).z = ⌊centerX d⌋ + 208 ∧
    (roi fw fh d).y = ⌊centerY d⌋ - 208 ∧ (roi fw fh d).w = ⌊centerY d⌋ + 208 := by
  obtain ⟨h1, h2, h3, h4⟩ := roi_fields fw fh d hw1 hw2 hh1 hh2
  obtain ⟨ax, bx⟩ := axis_centred (centerX d) fw hw2 hx1 hx2
  obtain ⟨ay, by_⟩ := axis_centred (centerY d) fh hh2 hy1 hy2
  have lx : lr_center fw d = ⌊centerX d⌋ := by rw [lr_center_eq fw d hw1 hw2, bx]
  have ly : tb_center fh d = ⌊centerY d⌋ := by rw [tb_center_eq fh d hh1 hh2, by_]
  rw [h1, h2, h3, h4, lx, ly, ax, ay]
  exact ⟨rfl, rfl, rfl, rfl, rfl, rfl, rfl, rfl⟩

/-- Witness of the amended C8: `halfPixelBox` in the frame 1920x1080. -/
theorem roi_centering_truncated_witness :
    lr_center 1920 halfPixelBox = f2u (centerX halfPixelBox) ∧
    f2u (centerX halfPixelBox) = ⌊centerX halfPixelBox⌋ ∧
    tb_center 1080 halfPixelBox = f2u (centerY halfPixelBox) ∧
    f2u (centerY halfPixelBox) = ⌊centerY halfPixelBox⌋ ∧
    (roi 1920 1080 halfPixelBox).x = ⌊centerX halfPixelBox⌋ - 208 ∧
    (roi 1920 1080 halfPixelBox).z = ⌊centerX halfPixelBox⌋ + 208 ∧
    (roi 1920 1080 halfPixelBox).y = ⌊centerY halfPixelBox⌋ - 208 ∧
    (roi 1920 1080 halfPixelBox).w = ⌊centerY halfPixelBox⌋ + 208 :=
  roi_centering_truncated 1920 1080 halfPixelBox (by decide) (by decide) (by decide) (by decide)
    (by rw [centerX_halfPixelBox]; norm_num)
    (by rw [centerX_halfPixelBox]; norm_num)
    (by rw [centerY_300_500 halfPixelBox rfl rfl]; norm_num)
    (by rw [centerY_300_500 halfPixelBox rfl rfl]; norm_num)

/-- C9 (ROI edge clamp): for a frame whose extents are `int` values of at
least 416, on each axis separately, a float centre below 208 makes the
rectangle cover `[0, 416)` and a float centre above `extent - 208` makes it
cover `[extent - 416, extent)`; in the frame 1920x1080 every detection centred
at (10, 10) gets the rectangle (0,0)-(416,416). -/
theorem roi_edge_clamp (fw fh : Int) (d : Detection)
    (hw1 : 416 ≤ fw) (hw2 : fw ≤ INT_MAX) (hh1 : 416 ≤ fh) (hh2 : fh ≤ INT_MAX) :
    (centerX d < 208 → (roi fw fh d).x = 0 ∧ (roi fw fh d).z = 416) ∧
    ((fw : ℚ) - 208 < centerX d → (roi fw fh d).x = fw - 416 ∧ (roi fw fh d).z = fw) ∧
    (centerY d < 208 → (roi fw fh d).y = 0 ∧ (roi fw fh d).w = 416) ∧
    ((fh : ℚ) - 208 < centerY d → (roi fw fh d).y = fh - 416 ∧ (roi fw fh d).w = fh) ∧
    (∀ c : Detection, centerX c = 10 → centerY c = 10 →
      roi 1920 1080 c = { x := 0, y := 0, z := 416, w := 416 }) := by
  obtain ⟨h1, h2, h3, h4⟩ := roi_fields fw fh d hw1 hw2 hh1 hh2
  obtain ⟨xlo, xhi⟩ := axis_clamped (centerX d) fw hw1 hw2
  obtain ⟨ylo, yhi⟩ := axis_clamped (centerY d) fh hh1 hh2
  rw [h1, h2, h3, h4, lr_center_eq fw d hw1 hw2, tb_center_eq fh d hh1 hh2]
  refine ⟨?_, ?_, ?_, ?_, ?_⟩
  · intro h
    rw [xlo h]
    exact ⟨by norm_num, by norm_num⟩
  · intro h
    rw [xhi h]
    exact ⟨by ring, by ring⟩
  · intro h
    rw [ylo h]
    exact ⟨by norm_num, by norm_num⟩
  · intro h
    rw [yhi h]
    exact ⟨by ring, by ring⟩
  · intro c hcx hcy
    rw [roi_eval 1920 1080 c 10 10 (by norm_num) (by norm_num [INT_MAX])
      (by norm_num) (by norm_num [INT_MAX])
      (by rw [hcx]; norm_num [f2u]) (by rw [hcy]; norm_num [f2u])]
    norm_num

/-- Witness of C9: `cornerBox`, centred at (10, 10), in the frame 1920x1080
gets the rectangle (0,0)-(416,416). -/
theorem roi_edge_clamp_witness :
    (roi 1920 1080 cornerBox).x = 0 ∧ (roi 1920 1080 cornerBox).z = 416 ∧
    (roi 1920 1080 cornerBox).y = 0 ∧ (roi 1920 1080 cornerBox).w = 416 :=
  have h := roi_edge_clamp 1920 1080 cornerBox (by decide) (by decide) (by decide) (by decide)
  have hx := h.1 (by rw [centerX_cornerBox]; norm_num)
  have hy := h.2.2.1 (by rw [centerY_cornerBox]; norm_num)
  ⟨hx.1, hx.2, hy.1, hy.2⟩

/-- C10 as stated fails: `halfPixelBox` passes the size check (width 416,
height 200) and lies inside the frame 1920x1080, yet its right edge 508.5 is
beyond `roi.z = 508`. -/
theorem roi_covers_box_fails :
    (416 : Int) ≤ 1920 ∧ (416 : Int) ≤ 1080 ∧
    halfPixelBox.Width ≤ 416 ∧ halfPixelBox.Height ≤ 416 ∧
    0 ≤ halfPixelBox.Left ∧ halfPixelBox.Right ≤ 1920 ∧
    0 ≤ halfPixelBox.Top ∧ halfPixelBox.Bottom ≤ 1080 ∧
    ¬ (halfPixelBox.Right ≤ ((roi 1920 1080 halfPixelBox).z : ℚ)) := by
  rw [roi_halfPixelBox]
  norm_num [Detection.Width, Detection.Height, halfPixelBox]

/-- C10 (the crop covers the detected object), amended: for a frame whose
extents are between 416 and `2^24` and a detection with binary32 edges that
passes the size check (on the exact or on the binary32 value of `Width()` and
`Height()`) and lies inside the frame, the crop contains the box up to one
pixel on each side: `roi.x - 1 < Left`, `roi.y - 1 < Top`,
`Right <= roi.z + 1`, `Bottom <= roi.w + 1`. -/
theorem roi_covers_box_within_pixel (fw fh : Int) (d : Detection)
    (hw1 : 416 ≤ fw) (hw2 : fw ≤ 16777216) (hh1 : 416 ≤ fh) (hh2 : fh ≤ 16777216)
    (hfr : IsFloat32 d.Right) (hfb : IsFloat32 d.Bottom)
    (hsw : d.Width ≤ 416 ∨ rnd32 d.Width ≤ 416) (hsh : d.Height ≤ 416 ∨ rnd32 d.Height ≤ 416)
    (hl : 0 ≤ d.Left) (hr : d.Right ≤ fw) (ht : 0 ≤ d.Top) (hb : d.Bottom ≤ fh) :
    ((roi fw fh d).x : ℚ) - 1 < d.Left ∧ d.Right ≤ ((roi fw fh d).z : ℚ) + 1 ∧
    ((roi fw fh d).y : ℚ) - 1 < d.Top ∧ d.Bottom ≤ ((roi fw fh d).w : ℚ) + 1 := by
  have hi1 : fw ≤ INT_MAX := by unfold INT_MAX; omega
  have hi2 : fh ≤ INT_MAX := by unfold INT_MAX; omega
  have hsw2 : rnd32 (d.Right - d.Left) ≤ 416 := by
    rcases hsw with h | h
    · exact rnd32_le_int _ 416 (by decide) (by push_cast; exact h)
    · exact h
  have hsh2 : rnd32 (d.Bottom - d.Top) ≤ 416 := by
    rcases hsh with h | h
    · exact rnd32_le_int _ 416 (by decide) (by push_cast; exact h)
    · exact h
  obtain ⟨h1, h2, h3, h4⟩ := roi_fields fw fh d hw1 hi1 hh1 hi2
  have ax := axis_cover32 d.Left d.Right (centerX d) fw hw1 hw2 rfl hfr hsw2 hl hr
  have ay := axis_cover32 d.Top d.Bottom (centerY d) fh hh1 hh2 rfl hfb hsh2 ht hb
  rw [← lr_center_eq fw d hw1 hi1] at ax
  rw [← tb_center_eq fh d hh1 hi2] at ay
  rw [h1, h2, h3, h4]
  push_cast
  refine ⟨by linarith [ax.1], by linarith [ax.2], by linarith [ay.1], by linarith [ay.2]⟩

/-- Witness of the amended C10: `halfPixelBox` in the frame 1920x1080. -/
theorem roi_covers_box_within_pixel_witness :
    ((roi 1920 1080 halfPixelBox).x : ℚ) - 1 < halfPixelBox.Left ∧
    halfPixelBox.Right ≤ ((roi 1920 1080 halfPixelBox).z : ℚ) + 1 ∧
    ((roi 1920 1080 halfPixelBox).y : ℚ) - 1 < halfPixelBox.Top ∧
    halfPixelBox.Bottom ≤ ((roi 1920 1080 halfPixelBox).w : ℚ) + 1 :=
  roi_covers_box_within_pixel 1920 1080 halfPixelBox
    (by decide) (by decide) (by decide) (by decide)
    ⟨1017, 1, by decide, Or.inr ⟨by decide, by norm_num [halfPixelBox]⟩⟩
    ⟨500, 0, by decide, Or.inr ⟨by decide, by norm_num [halfPixelBox]⟩⟩
    (Or.inl (by norm_num [Detection.Width, halfPixelBox]))
    (Or.inl (by norm_num [Detection.Height, halfPixelBox]))
    (by norm_num [halfPixelBox]) (by norm_num [halfPixelBox])
    (by norm_num [halfPixelBox]) (by norm_num [halfPixelBox])

/-! ## Claims on the scan of one frame -/

/-- C2 (policy decision): for the detections of a frame (confidences being
`float` values) and any `pacer` and `frame_count`, the scan selects a crop if
and only if some detection has confidence above 0.70, a label containing
"dog" and a box at most 416 wide and high, and `frame_count - pacer > 20` for
the `pacer` on entry; a frame whose detections all have confidence at most
0.70 selects nothing, and a detection with confidence at most 0.70 can be
removed from the frame without changing the outcome of the scan. -/
theorem policy_decision (g : Nat → String) (fw fh fc p : Int) (dets : List Detection)
    (hf : ∀ d ∈ dets, IsFloat32 d.Confidence) :
    ((detectionLoop g fw fh fc dets p).2 ≠ [] ↔
      ((∃ d ∈ dets, d.Confidence > 7 / 10 ∧ OBJECT.toList <:+: (g d.ClassID).toList ∧
          d.Width ≤ 416 ∧ d.Height ≤ 416) ∧ fc - p > 20)) ∧
    ((∀ d ∈ dets, d.Confidence ≤ 7 / 10) → (detectionLoop g fw fh fc dets p).2 = []) ∧
    (∀ (pre post : List Detection) (d : Detection), dets = pre ++ d :: post →
      d.Confidence ≤ 7 / 10 →
      detectionLoop g fw fh fc dets p = detectionLoop g fw fh fc (pre ++ post) p) := by
  have main : (detectionLoop g fw fh fc dets p).2 ≠ [] ↔
      ((∃ d ∈ dets, Qualifying g d) ∧ fc - p > 20) := by
    by_cases hq : ∃ d ∈ dets, Qualifying g d
    · obtain ⟨pre, d, post, hl, hpre, hd⟩ := split_first _ dets hq
      have hfpre : ∀ x ∈ pre, IsFloat32 x.Confidence := by
        intro x hx
        exact hf x (by rw [hl]; exact List.mem_append_left _ hx)
      have hfd : IsFloat32 d.Confidence :=
        hf d (by rw [hl]; exact List.mem_append_right _ (List.mem_cons_self _ _))
      have h := detectionLoop_first_qualifying g fw fh fc p pre post d hfpre hfd hpre hd
      rw [← hl] at h
      rw [h]
      by_cases hp : fc - p > 20
      · rw [if_pos hp]
        simp [hq, hp]
      · rw [if_neg hp]
        simp [hp]
    · have hnone : ∀ d ∈ dets, ¬ Qualifying g d := fun d hd hc => hq ⟨d, hd, hc⟩
      rw [detectionLoop_none g fw fh fc p dets hf hnone]
      simp [hq]
  refine ⟨main, ?_, ?_⟩
  · intro hlow
    by_contra hne
    obtain ⟨⟨d, hd, hc, _⟩, _⟩ := main.mp hne
    exact absurd hc (not_lt.mpr (hlow d hd))
  · intro pre post d hl hlow
    have hfd : IsFloat32 d.Confidence :=
      hf d (by rw [hl]; exact List.mem_append_right _ (List.mem_cons_self _ _))
    have hd : ¬ d.Confidence > MIN_CONF := by
      rw [float32_gt_MIN_CONF _ hfd]
      exact not_lt.mpr hlow
    rw [hl]
    exact detectionLoop_drop g fw fh fc p pre post d hd

/-- Witness of C2: the frame with `dogBox` alone, scanned at frame 1 with the
initial `pacer`, selects a crop. -/
theorem policy_decision_witness :
    (detectionLoop sampleDesc 1920 1080 1 [dogBox] (-21)).2 ≠ [] ↔
      ((∃ d ∈ [dogBox], d.Confidence > 7 / 10 ∧ OBJECT.toList <:+: (sampleDesc d.ClassID).toList ∧
          d.Width ≤ 416 ∧ d.Height ≤ 416) ∧ (1 : Int) - (-21) > 20) :=
  (policy_decision sampleDesc 1920 1080 1 (-21) [dogBox]
    (by
      intro d hd
      rw [List.mem_singleton.mp hd]
      exact isFloat32_seven_eighths)).1

/-- C3 (first match wins): in a frame whose first qualifying detection is
`d`, whatever follows it, the scan selects at most one crop, the crop is the
rectangle of `d` (selected exactly when the pace check passes on entry), and
the detections after `d` change neither the crops nor the final `pacer`. -/
theorem first_match_wins (g : Nat → String) (fw fh fc p : Int)
    (pre post : List Detection) (d : Detection)
    (hf : ∀ x ∈ pre, IsFloat32 x.Confidence) (hfd : IsFloat32 d.Confidence)
    (hpre : ∀ x ∈ pre, ¬ Qualifying g x) (hd : Qualifying g d) :
    detectionLoop g fw fh fc (pre ++ d :: post) p =
      (if fc - p > 20 then (fc, [roi fw fh d]) else (p, [])) ∧
    (detectionLoop g fw fh fc (pre ++ d :: post) p).2.length ≤ 1 ∧
    detectionLoop g fw fh fc (pre ++ d :: post) p = detectionLoop g fw fh fc (pre ++ [d]) p := by
  have h1 := detectionLoop_first_qualifying g fw fh fc p pre post d hf hfd hpre hd
  have h2 := detectionLoop_first_qualifying g fw fh fc p pre [] d hf hfd hpre hd
  refine ⟨h1, ?_, by rw [h1, h2]⟩
  rw [h1]
  split_ifs <;> simp

/-- Witness of C3: two qualifying detections in one frame, `dogBox` first and
`halfPixelBox` second, scanned at frame 1 with the initial `pacer`. -/
theorem first_match_wins_witness :
    detectionLoop sampleDesc 1920 1080 1 ([] ++ dogBox :: [halfPixelBox]) (-21) =
      (if (1 : Int) - (-21) > 20 then (1, [roi 1920 1080 dogBox]) else (-21, [])) ∧
    (detectionLoop sampleDesc 1920 1080 1 ([] ++ dogBox :: [halfPixelBox]) (-21)).2.length ≤ 1 ∧
    detectionLoop sampleDesc 1920 1080 1 ([] ++ dogBox :: [halfPixelBox]) (-21) =
      detectionLoop sampleDesc 1920 1080 1 ([] ++ [dogBox]) (-21) :=
  first_match_wins sampleDesc 1920 1080 1 (-21) [] [halfPixelBox] dogBox
    (by simp) isFloat32_seven_eighths (by simp) dogBox_qualifying

/-! ## Claims on the processing loop -/

/-- C7 (pacer invariant): after any number of iterations of the loop, with
failed or successful captures, any detections, any answers of the outputs and
any interrupts, `pacer <= frame_count`.  (The state in the middle of a scan
has the counters of the run whose last frame ends at that detection.) -/
theorem pacer_le_frame_count (cfg : Setup) (its : List Iteration) :
    (run cfg its).pacer ≤ (run cfg its).frame_count :=
  (run_inv cfg its).1

/-- C4 (emission spacing): in every run of the loop from its initial state
(`pacer = -21`, `frame_count = 0`), two frames `f1 < f2` at which a crop is
made satisfy `f2 - f1 > 20`, so at least 20 frame indices lie strictly between
them; and in the run of 25 frames with a qualifying detection in frames 1, 15
and 25 only, crops are made at frames 1 and 25 and not at frame 15. -/
theorem emission_spacing :
    (∀ (cfg : Setup) (its : List Iteration),
      ∀ f1 ∈ cropFrames (run cfg its).log, ∀ f2 ∈ cropFrames (run cfg its).log,
        f1 < f2 → f2 - f1 > 20 ∧ 20 ≤ f2 - f1 - 1) ∧
    init.pacer = -21 ∧ init.frame_count = 0 ∧
    cropFrames (run bothOutputs pacingScenario).log = [1, 25] := by
  refine ⟨?_, rfl, rfl, ?_⟩
  · intro cfg its f1 hf1 f2 hf2 hlt
    have := (run_inv cfg its).2 f1 hf1 f2 hf2 hlt
    omega
  unfold run pacingScenario
  rw [List.foldl_cons, List.foldl_append, List.foldl_cons, List.foldl_append, List.foldl_cons,
    List.foldl_nil]
  obtain ⟨r1, f1, p1, c1⟩ := step_dogFrame bothOutputs init 0 (-21) [] rfl rfl rfl rfl (by decide) rfl
  norm_num at f1 p1 c1
  obtain ⟨r2, f2, p2, c2⟩ := foldl_emptyFrames bothOutputs 13 _ 1 1 [1] r1 f1 p1 c1
  norm_num at f2
  obtain ⟨r3, f3, p3, c3⟩ := step_dogFrame bothOutputs _ 14 1 [1] r2 rfl rfl f2 p2 c2
  norm_num at f3 p3 c3
  obtain ⟨r4, f4, p4, c4⟩ := foldl_emptyFrames bothOutputs 9 _ 15 1 [1] r3 f3 p3 c3
  norm_num at f4
  obtain ⟨_, _, _, c5⟩ := step_dogFrame bothOutputs _ 24 1 [1] r4 rfl rfl f4 p4 c4
  norm_num at c5
  exact c5

/-- Witness of C4: the crops of the 25-frame scenario, at frames 1 and 25,
are 24 frames apart. -/
theorem emission_spacing_witness : (25 : Int) - 1 > 20 ∧ (20 : Int) ≤ 25 - 1 - 1 :=
  emission_spacing.1 bothOutputs pacingScenario
    1 (by rw [emission_spacing.2.2.2]; decide)
    25 (by rw [emission_spacing.2.2.2]; decide)
    (by decide)

/-- C6 (initial pacer sentinel): when no captured frame so far had a
qualifying detection and the loop is still running, a captured frame with a
qualifying detection passes the pace check whatever its index: it is the
first frame with a crop, `cudaCrop` is called with the rectangle of one of its
qualifying detections and `img_output->Render` follows. -/
theorem first_qualifying_frame_emits (cfg : Setup) (pre : List Iteration) (w h : Int)
    (dets : List Detection) (os sig : Bool)
    (hfp : ∀ it ∈ pre, ∀ d ∈ it.detections, IsFloat32 d.Confidence)
    (hf : ∀ d ∈ dets, IsFloat32 d.Confidence)
    (hpre : ∀ it ∈ pre, ∀ d ∈ it.detections, ¬ Qualifying cfg.GetClassDesc d)
    (hrun : (run cfg pre).running = true)
    (hq : ∃ d ∈ dets, Qualifying cfg.GetClassDesc d) :
    cropFrames (run cfg pre).log = [] ∧
    (run cfg (pre ++ [⟨Capture.frame w h dets, os, sig⟩])).frame_count
      = (run cfg pre).frame_count + 1 ∧
    (run cfg (pre ++ [⟨Capture.frame w h dets, os, sig⟩])).pacer
      = (run cfg pre).frame_count + 1 ∧
    cropFrames (run cfg (pre ++ [⟨Capture.frame w h dets, os, sig⟩])).log
      = [(run cfg pre).frame_count + 1] ∧
    ∃ d ∈ dets, Qualifying cfg.GetClassDesc d ∧
      (⟨(run cfg pre).frame_count + 1, Call.cudaCrop (roi w h d) w h⟩ : Event)
        ∈ (run cfg (pre ++ [⟨Capture.frame w h dets, os, sig⟩])).log ∧
      (⟨(run cfg pre).frame_count + 1, Call.Render Output.img_output⟩ : Event)
        ∈ (run cfg (pre ++ [⟨Capture.frame w h dets, os, sig⟩])).log := by
  have hstep : run cfg (pre ++ [⟨Capture.frame w h dets, os, sig⟩])
      = step cfg (run cfg pre) ⟨Capture.frame w h dets, os, sig⟩ := by
    unfold run
    rw [List.foldl_append, List.foldl_cons, List.foldl_nil]
  obtain ⟨q1, q2, q3⟩ : (run cfg pre).pacer = -21 ∧ 0 ≤ (run cfg pre).frame_count ∧
      cropFrames (run cfg pre).log = [] := by
    unfold run
    exact foldl_step_quiet cfg pre init rfl (by decide) rfl hfp hpre
  obtain ⟨e1, e2, e3, _⟩ := step_frame cfg (run cfg pre) w h dets os sig hrun
  obtain ⟨a, d, b, hl, ha, hd⟩ := split_first _ dets hq
  have hfa : ∀ x ∈ a, IsFloat32 x.Confidence := by
    intro x hx
    exact hf x (by rw [hl]; exact List.mem_append_left _ hx)
  have hfd : IsFloat32 d.Confidence :=
    hf d (by rw [hl]; exact List.mem_append_right _ (List.mem_cons_self _ _))
  have hscan := detectionLoop_first_qualifying cfg.GetClassDesc w h
    ((run cfg pre).frame_count + 1) (run cfg pre).pacer a b d hfa hfd ha hd
  rw [← hl, q1, if_pos (by omega)] at hscan
  rw [q1] at e1 e3
  rw [hscan] at e1 e3
  rw [hstep]
  refine ⟨q3, e2, e1, ?_, d, ?_, hd, ?_, ?_⟩
  · rw [e3, cropFrames_append, cropFrames_append, cropFrames_outputEvents,
      cropFrames_cropEvents_one, q3]
    rfl
  · rw [hl]
    exact List.mem_append_right _ (List.mem_cons_self _ _)
  · rw [e3]
    simp [cropEvents]
  · rw [e3]
    simp [cropEvents]

/-- Witness of C6: after three frames without detections and a failed
capture, the frame showing `dogBox` is frame 4 and gets a crop. -/
theorem first_qualifying_frame_emits_witness :
    cropFrames (run bothOutputs [emptyFrame, emptyFrame, ⟨Capture.failed true, true, false⟩,
      emptyFrame]).log = [] ∧
    (run bothOutputs ([emptyFrame, emptyFrame, ⟨Capture.failed true, true, false⟩, emptyFrame]
      ++ [⟨Capture.frame 1920 1080 [dogBox], true, false⟩])).frame_count
      = (run bothOutputs [emptyFrame, emptyFrame, ⟨Capture.failed true, true, false⟩,
          emptyFrame]).frame_count + 1 ∧
    (run bothOutputs ([emptyFrame, emptyFrame, ⟨Capture.failed true, true, false⟩, emptyFrame]
      ++ [⟨Capture.frame 1920 1080 [dogBox], true, false⟩])).pacer
      = (run bothOutputs [emptyFrame, emptyFrame, ⟨Capture.failed true, true, false⟩,
          emptyFrame]).frame_count + 1 ∧
    cropFrames (run bothOutputs ([emptyFrame, emptyFrame, ⟨Capture.failed true, true, false⟩,
        emptyFrame] ++ [⟨Capture.frame 1920 1080 [dogBox], true, false⟩])).log
      = [(run bothOutputs [emptyFrame, emptyFrame, ⟨Capture.failed true, true, false⟩,
          emptyFrame]).frame_count + 1] ∧
    ∃ d ∈ [dogBox], Qualifying bothOutputs.GetClassDesc d ∧
      (⟨(run bothOutputs [emptyFrame, emptyFrame, ⟨Capture.failed true, true, false⟩,
          emptyFrame]).frame_count + 1, Call.cudaCrop (roi 1920 1080 d) 1920 1080⟩ : Event)
        ∈ (run bothOutputs ([emptyFrame, emptyFrame, ⟨Capture.failed true, true, false⟩,
            emptyFrame] ++ [⟨Capture.frame 1920 1080 [dogBox], true, false⟩])).log ∧
      (⟨(run bothOutputs [emptyFrame, emptyFrame, ⟨Capture.failed true, true, false⟩,
          emptyFrame]).frame_count + 1, Call.Render Output.img_output⟩ : Event)
        ∈ (run bothOutputs ([emptyFrame, emptyFrame, ⟨Capture.failed true, true, false⟩,
            emptyFrame] ++ [⟨Capture.frame 1920 1080 [dogBox], true, false⟩])).log :=
  first_qualifying_frame_emits bothOutputs
    [emptyFrame, emptyFrame, ⟨Capture.failed true, true, false⟩, emptyFrame] 1920 1080 [dogBox]
    true false
    (by simp [emptyFrame, Iteration.detections])
    (by
      intro d hd
      rw [List.mem_singleton.mp hd]
      exact isFloat32_seven_eighths)
    (by simp [emptyFrame, Iteration.detections])
    (by simp [run, step, loopBody, emptyFrame, init, LoopState.running, bothOutputs])
    ⟨dogBox, List.mem_singleton.mpr rfl, dogBox_qualifying⟩

/-- C5 fails for the image output: with `img_output == NULL` and the frame
output created, the first frame showing `dogBox` makes the loop call
`img_output->Render` (line 205) on the null pointer. -/
theorem img_output_render_unguarded :
    noImgOutput.img_output = false ∧
    (⟨1, Call.Render Output.img_output⟩ : Event) ∈ (run noImgOutput [dogFrame]).log ∧
    rendersOnMissing noImgOutput (run noImgOutput [dogFrame]).log := by
  have hmem : (⟨1, Call.Render Output.img_output⟩ : Event) ∈ (run noImgOutput [dogFrame]).log := by
    unfold run
    rw [List.foldl_cons, List.foldl_nil]
    obtain ⟨_, _, e3, _⟩ := step_frame noImgOutput init 1920 1080 [dogBox] true false rfl
    have hd := detectionLoop_first sampleDesc 1920 1080 (init.frame_count + 1) init.pacer [] []
      dogBox (by simp) dogBox_hit
    rw [List.nil_append, if_pos (by decide)] at hd
    have hg : noImgOutput.GetClassDesc = sampleDesc := rfl
    rw [hg, hd] at e3
    unfold dogFrame
    rw [e3]
    simp [cropEvents, init]
  exact ⟨rfl, hmem, ⟨1, Call.Render Output.img_output⟩, hmem, Output.img_output, rfl, rfl⟩

end Detectnet
